import Mathlib

/-!
Verification development for the local vault HTTP server plugin
(`src/main.ts`).  The TypeScript request-handling core is shallowly
embedded as executable Lean functions: JavaScript strings become `String`
(reasoned about through their `List Char` model), times and `Date.now()`
values become `Int` milliseconds, the Node filesystem and the host
application (vault adapter, renderer, crypto) become explicit environment
records of functions, and every fallible call becomes `Option` / a sum
type.  The host path separator (`path.sep`, `"/"` on POSIX, `"\\"` on
Windows) is an explicit `Char` parameter so host-convention-dependent
behaviour can be stated and refuted precisely.
-/

namespace LocalVaultServer

/-! ## String helpers

JavaScript string operations used by `main.ts`, modelled over the
`List Char` representation so that all definitions kernel-evaluate. -/

/-- JS `String.prototype.startsWith`. -/
def strStartsWith (s p : String) : Bool :=
  p.data.isPrefixOf s.data

/-- JS `String.prototype.endsWith`. -/
def strEndsWith (s p : String) : Bool :=
  p.data.reverse.isPrefixOf s.data.reverse

/-- JS `String.prototype.substring(n)` / dropping a known prefix. -/
def strDrop (s : String) (n : Nat) : String :=
  ⟨s.data.drop n⟩

/-- Length in characters (the strings handled here are ASCII, so this
agrees with JS UTF-16 length). -/
def strLen (s : String) : Nat :=
  s.data.length

/-- JS `String.prototype.includes`: substring containment. -/
def strContains (h n : String) : Bool :=
  (List.range (h.data.length + 1)).any fun i => n.data.isPrefixOf (h.data.drop i)

/-- JS `replace(/\0/g, '')`: remove NUL characters. -/
def removeNulChars (s : String) : String :=
  ⟨s.data.filter fun c => c ≠ Char.ofNat 0⟩

/-- JS `replace(/^\/+/, '')`: strip all leading forward slashes. -/
def stripLeadingSlashes (s : String) : String :=
  ⟨s.data.dropWhile fun c => c = '/'⟩

/-- JS `String.prototype.toLowerCase` on the ASCII strings in play. -/
def toLowerStr (s : String) : String :=
  ⟨s.data.map Char.toLower⟩

/-- JS `String.prototype.toUpperCase` on the ASCII strings in play. -/
def toUpperStr (s : String) : String :=
  ⟨s.data.map Char.toUpper⟩

/-- Split a character list at every occurrence of `sep` (JS
`String.prototype.split` with a one-character separator). -/
def splitCharAux (sep : Char) : List Char → List Char → List (List Char)
  | [], acc => [acc.reverse]
  | c :: cs, acc =>
    if c = sep then acc.reverse :: splitCharAux sep cs []
    else splitCharAux sep cs (c :: acc)

/-- JS `s.split(sep)` for a one-character separator string. -/
def splitChar (s : String) (sep : Char) : List String :=
  (splitCharAux sep s.data []).map String.mk

/-- JS `Array.prototype.join(sep)`. -/
def joinWith (sep : String) : List String → String
  | [] => ""
  | [x] => x
  | x :: xs => x ++ sep ++ joinWith sep xs

/-- JS `String.prototype.trim` (the whitespace actually occurring in the
extension lists handled here). -/
def trimString (s : String) : String :=
  let ws : Char → Bool := fun c => c = ' ' ∨ c = '\t' ∨ c = '\n' ∨ c = '\r'
  ⟨(s.data.dropWhile ws).reverse.dropWhile ws |>.reverse⟩

/-- Lexicographic comparison of strings by character code, the order of
the JS default `Array.prototype.sort` on the ASCII strings in play. -/
def charListLe : List Char → List Char → Bool
  | [], _ => true
  | _ :: _, [] => false
  | a :: as, b :: bs => if a = b then charListLe as bs else decide (a < b)

/-- String order backing the JS default sort. -/
def strLe (a b : String) : Bool :=
  charListLe a.data b.data

/-- Insertion into a sorted list of strings. -/
def insertSorted (x : String) : List String → List String
  | [] => [x]
  | y :: ys => if strLe x y then x :: y :: ys else y :: insertSorted x ys

/-- JS `Array.prototype.sort()` (default string order) as insertion sort. -/
def sortStrings (l : List String) : List String :=
  l.foldr insertSorted []

/-- Insertion-ordered deduplication, the effect of `new Set(items)`
followed by iteration. -/
def dedupKeepFirst (l : List String) : List String :=
  l.foldl (fun acc x => if acc.contains x then acc else acc ++ [x]) []

/-! ## Path helpers

Models of the Node `path` functions `main.ts` relies on, restricted to
the canonical absolute inputs the handler actually produces.  `sep` is
the host separator `path.sep`. -/

/-- One-character separator as a string (`path.sep`). -/
def sepStr (sep : Char) : String :=
  String.mk [sep]

/-- Segment processing of Node `path.posix.normalize` on an absolute
path: empty and `.` segments vanish, `..` pops (and is dropped at the
root, as for absolute paths). -/
def posixNormSegs (segs : List String) : List String :=
  segs.foldl
    (fun acc seg =>
      if seg = "" ∨ seg = "." then acc
      else if seg = ".." then acc.dropLast
      else acc ++ [seg])
    []

/-- Models Node `path.posix.normalize` on an absolute input (the handler
always prepends `'/'` before calling it); the trailing slash is
preserved as Node does. -/
def posixNormalizeAbs (p : String) : String :=
  let out := posixNormSegs (splitChar p '/')
  if out = [] then "/"
  else "/" ++ joinWith "/" out ++ (if strEndsWith p "/" then "/" else "")

/-- JS `replace(/^(\.\.[\/\\])+/, '')`: strip a maximal leading run of
`../` or `..\` (defence in depth, `main.ts:1389`). -/
def stripLeadingDotDotAux : Nat → String → String
  | 0, s => s
  | n + 1, s =>
    if strStartsWith s "../" ∨ strStartsWith s "..\\" then
      stripLeadingDotDotAux n (strDrop s 3)
    else s

/-- Strip every leading `../` / `..\` occurrence (character count bounds
the number of removals). -/
def stripLeadingDotDot (s : String) : String :=
  stripLeadingDotDotAux (strLen s) s

/-- Models Node `path.join(base, p)` for a canonical absolute `base`
(no trailing separator) and a POSIX-normalized suffix `p`, the only
argument shapes the handler passes: forward slashes in `p` become the
host separator (as the `win32` flavour normalizes them) and joining with
an empty or root suffix returns the base. -/
def pathJoin (sep : Char) (base p : String) : String :=
  if p = "" ∨ p = "/" then base
  else
    let pSep : String := ⟨p.data.map fun c => if c = '/' then sep else c⟩
    if strStartsWith pSep (sepStr sep) then base ++ pSep
    else base ++ sepStr sep ++ pSep

/-- Models Node `path.join(dir, name)` of a canonical directory and a
plain entry name (`serveDirectoryListing`). -/
def pathJoinName (sep : Char) (dir name : String) : String :=
  if strEndsWith dir (sepStr sep) then dir ++ name else dir ++ sepStr sep ++ name

/-- Models Node `path.relative(root, target)` for canonical absolute
paths in the three cases the handler produces: `target` equal to the
root gives `""`, a strict descendant gives the suffix after
`root + sep`, and any other target gives a `".."`-prefixed path (Node
returns a `..`-led walk there; callers in `main.ts` only ever test that
prefix or use the result after a containment check has already
succeeded). -/
def pathRelative (sep : Char) (root target : String) : String :=
  if target = root then ""
  else if strStartsWith target (root ++ sepStr sep) then
    strDrop target (strLen root + 1)
  else ".." ++ sepStr sep ++ target

/-- Models Node `path.isAbsolute` for the separator conventions in play
(drive-letter absolutes never occur as outputs of `pathRelative`
above). -/
def isAbsolutePath (s : String) : Bool :=
  strStartsWith s "/" ∨ strStartsWith s "\\"

/-- Embeds `isPathInside` (`main.ts:853-857`). -/
def isPathInside (sep : Char) (parent child : String) : Bool :=
  let relative := pathRelative sep parent child
  if relative = "" then true
  else !(strStartsWith relative "..") && !(isAbsolutePath relative)

/-- JS `value.split(path.sep).join(path.posix.sep)`: forward-slash
normalization of one path. -/
def toPosixSep (sep : Char) (s : String) : String :=
  joinWith "/" (splitChar s sep)

/-- Characters of the basename: everything after the last separator. -/
def basenameChars (cs : List Char) : List Char :=
  cs.foldl (fun acc c => if c = '/' ∨ c = '\\' then [] else acc ++ [c]) []

/-- Index of the last `'.'` in a character list, if any. -/
def lastDotIndex (cs : List Char) : Option Nat :=
  (List.range cs.length).foldl
    (fun acc i => if cs.get? i = some '.' then some i else acc) none

/-- Models Node `path.extname`: the suffix of the basename from its last
dot, empty for dotfiles and extensionless names. -/
def extname (p : String) : String :=
  let base := basenameChars p.data
  match lastDotIndex base with
  | none => ""
  | some 0 => ""
  | some i => ⟨base.drop i⟩

/-! ## Data model -/

/-- Classification of a `fs.Stats` record as used by the handler. -/
inductive FileKind
  | file
  | directory
  | other
deriving DecidableEq, Repr

/-- The fields of `fs.Stats` the server reads. -/
structure Stats where
  kind : FileKind
  size : Nat
  mtimeMs : Int
deriving DecidableEq, Repr

/-- Outcome of `fs.stat`: the handler distinguishes `ENOENT` from other
errors (`main.ts:1422`). -/
inductive StatResult
  | ok (stats : Stats)
  | errEnoent
  | errOther
deriving DecidableEq, Repr

/-- One `fs.Dirent` as used by the directory listing. -/
structure Dirent where
  name : String
  kind : FileKind
deriving DecidableEq, Repr

/-- The filesystem as seen through the Node calls the server makes;
`none` models a thrown/propagated error. -/
structure FileSystem where
  realpath : String → Option String
  stat : String → StatResult
  readdir : String → Option (List Dirent)

/-- The host application's vault: the canonical base path
(`getVaultBasePath`) and the tracked-file membership query
(`getAbstractFileByPath _ instanceof TFile`), keyed by vault-relative
forward-slash path. -/
structure VaultModel where
  basePath : Option String
  tracked : String → Bool

/-- Embeds `ServerEntrySettings` (`main.ts:40-55`), the per-entry
configuration. -/
structure ServerEntrySettings where
  id : String
  name : String
  host : String
  port : Nat
  serveDir : String
  enableWhitelist : Bool
  whitelistFiles : List String
  authToken : String
  allowLocalhostNoToken : Bool
  enableHttps : Bool
  sslCertPath : String
  sslKeyPath : String
deriving DecidableEq, Repr

/-- The parts of an incoming HTTP request the handler consumes.
`pathname` is the percent-decoded `URL.pathname`; `rawPathname` the
undecoded one (used by the preview localhost branch, `main.ts:1212`);
query parameters are the already-decoded `URLSearchParams` values.
Multi-valued headers are modelled single-valued (the `join(',')` /
`[0]` collapses in `main.ts` reduce them to one string). -/
structure Request where
  method : String
  pathname : String
  rawPathname : String
  authorization : Option String
  remoteAddress : String
  tokenParam : Option String
  pathParam : Option String
  previewParam : Option String
  extParam : Option String
  recursiveParam : Option String
  ifNoneMatch : Option String
  ifModifiedSince : Option String
deriving Repr

/-- Which branch of the server produced a response (a modelling label,
mirroring the distinct `sendResponse` / streaming call sites). -/
inductive RTag
  | plain
  | redirect
  | fileBody
  | fileHead
  | notModified
  | dirListing (names : List String)
  | markdownPreview (path : String)
  | indexJson
deriving DecidableEq, Repr

/-- An HTTP response as the claims observe it. `openedFile` records
whether the file's contents were read (`fs.createReadStream`). -/
structure Resp where
  status : Nat
  body : Option String
  tag : RTag
  openedFile : Bool
  etagHeader : Option String
  locationHeader : Option String
  wwwAuthenticate : Bool
deriving DecidableEq, Repr

/-- A `sendResponse(res, status, message, ...)` plain-text response. -/
def plainResp (status : Nat) (message : String) : Resp :=
  ⟨status, some message, RTag.plain, false, none, none, false⟩

/-- The 401 response of the bearer gate, which also sets
`WWW-Authenticate` (`main.ts:1364-1366`). -/
def unauthorizedResp : Resp :=
  ⟨401, some "Unauthorized: Missing authentication token.", RTag.plain,
    false, none, none, true⟩

/-! ## Constants (`main.ts:16-32`) -/

def INDEX_CACHE_TTL_MS : Int := 8000

def DEFAULT_INDEX_EXTENSIONS : List String :=
  ["png", "jpg", "jpeg", "webp", "gif", "bmp", "svg", "avif", "tif", "tiff"]

def MARKDOWN_PREVIEW_QUERY_KEY : String := "preview"

def MARKDOWN_PREVIEW_ENDPOINT : String := "/__markdown-preview"

def MARKDOWN_PREVIEW_ASSET_ENDPOINT : String := "/__markdown-asset"

def MARKDOWN_PREVIEW_TOKEN_TTL_MS : Int := 2 * 60 * 1000

/-! ## File-type and peer classification (`main.ts:300-324, 394-403`) -/

/-- Embeds `isMarkdownFile` (`main.ts:300-303`). -/
def isMarkdownFile (filePath : String) : Bool :=
  let ext := toLowerStr (extname filePath)
  ext = ".md" ∨ ext = ".markdown" ∨ ext = ".mdown"

/-- Embeds `isImageFile` (`main.ts:305-319`). -/
def isImageFile (filePath : String) : Bool :=
  let ext := toLowerStr (extname filePath)
  [".png", ".jpg", ".jpeg", ".gif", ".webp", ".avif", ".bmp", ".tif",
    ".tiff", ".svg"].contains ext

/-- Embeds `isPdfFile` (`main.ts:321-324`). -/
def isPdfFile (filePath : String) : Bool :=
  toLowerStr (extname filePath) = ".pdf"

/-- Embeds `isLocalhostRequest` (`main.ts:394-403`): the peer address is
one of the three loopback spellings. -/
def isLocalhostRequest (remoteAddress : String) : Bool :=
  remoteAddress = "127.0.0.1" ∨ remoteAddress = "::1" ∨
    remoteAddress = "::ffff:127.0.0.1"

/-! ## Conditional file serving (`main.ts:1875-1946, 2020-2023`) -/

/-- Embeds `buildFileEtag` (`main.ts:2020-2023`): a weak ETag from size
and modification time. -/
def buildFileEtag (stats : Stats) : String :=
  "W/\"" ++ toString stats.size ++ "-" ++ toString stats.mtimeMs ++ "\""

/-- Embeds `serveFile` (`main.ts:1875-1946`).  `dateParse` models
`Date.parse` (`none` = `NaN`).  An `If-None-Match` header containing the
tag, or a parsable `If-Modified-Since` at or after `mtimeMs`, yields 304
without opening the file; otherwise `HEAD` gets headers only and `GET`
streams the file. -/
def serveFile (dateParse : String → Option Int) (filePath : String)
    (stats : Stats) (method : String) (ifNoneMatch ifModifiedSince : Option String) :
    Resp :=
  let etag := buildFileEtag stats
  let requestMethod := toUpperStr method
  let inm := ifNoneMatch.getD ""
  if inm ≠ "" ∧ strContains inm etag then
    ⟨304, none, RTag.notModified, false, some etag, none, false⟩
  else
    let rest : Resp :=
      if requestMethod = "HEAD" then
        ⟨200, none, RTag.fileHead, false, some etag, none, false⟩
      else
        ⟨200, some filePath, RTag.fileBody, true, some etag, none, false⟩
    match ifModifiedSince with
    | none => rest
    | some h =>
      if h = "" then rest
      else
        match dateParse h with
        | none => rest
        | some since =>
          if stats.mtimeMs ≤ since then
            ⟨304, none, RTag.notModified, false, some etag, none, false⟩
          else rest

/-! ## Preview token service (`main.ts:336-362`) -/

/-- One stored preview token record. -/
structure PreviewTokenInfo where
  filePath : String
  expiresAt : Int
deriving DecidableEq, Repr

/-- The `previewTokens` JS `Map`, modelled as an association list with
unique keys (JS map keys are unique; iteration order is immaterial to
the claims). -/
abbrev TokenMap := List (String × PreviewTokenInfo)

/-- Lookup (`Map.prototype.get`). -/
def mapGet (m : TokenMap) (k : String) : Option PreviewTokenInfo :=
  (m.find? fun p => p.1 = k).map fun p => p.2

/-- Update (`Map.prototype.set`): the binding for `k` is replaced. -/
def mapSet (m : TokenMap) (k : String) (v : PreviewTokenInfo) : TokenMap :=
  (k, v) :: m.filter fun p => ¬ p.1 = k

/-- Embeds `prunePreviewTokens` (`main.ts:336-343`): delete every entry
with `expiresAt <= now`. -/
def prunePreviewTokens (now : Int) (m : TokenMap) : TokenMap :=
  m.filter fun p => ¬ p.2.expiresAt ≤ now

/-- Embeds `issuePreviewToken` (`main.ts:345-350`); the random token
string produced by `crypto.randomBytes(16).toString('hex')` is supplied
by the caller (the environment's randomness). -/
def issuePreviewToken (now : Int) (token filePath : String) (m : TokenMap) :
    TokenMap :=
  mapSet (prunePreviewTokens now m) token
    ⟨filePath, now + MARKDOWN_PREVIEW_TOKEN_TTL_MS⟩

/-- Embeds `resolvePreviewToken` (`main.ts:352-362`): prune, then look
up; `none`/empty token short-circuits to `null` without pruning. -/
def resolvePreviewToken (now : Int) (token : Option String) (m : TokenMap) :
    Option String × TokenMap :=
  match token with
  | none => (none, m)
  | some t =>
    if t = "" then (none, m)
    else
      let pruned := prunePreviewTokens now m
      match mapGet pruned t with
      | none => (none, pruned)
      | some info => (some info.filePath, pruned)

/-- A client-visible preview-token operation, for stating properties of
arbitrary operation sequences. -/
inductive TokenOp
  | issue (now : Int) (token filePath : String)
  | resolveStep (now : Int) (token : Option String)
deriving DecidableEq, Repr

/-- State transition of one operation. -/
def applyTokenOp (m : TokenMap) : TokenOp → TokenMap
  | TokenOp.issue now tok p => issuePreviewToken now tok p m
  | TokenOp.resolveStep now tok => (resolvePreviewToken now tok m).2

/-- Run a sequence of operations from a state. -/
def runTokenOps (m : TokenMap) (ops : List TokenOp) : TokenMap :=
  ops.foldl applyTokenOp m

/-! ## Directory listing (`main.ts:1750-1873`) -/

/-- Embeds `buildWhitelistDirectorySet` (`main.ts:1750-1767`): the set of
strict ancestor directories (native separators) of every whitelisted
file. -/
def buildWhitelistDirectorySet (sep : Char) (whitelistFiles : List String) :
    List String :=
  whitelistFiles.foldl
    (fun acc filePath =>
      let parts := (splitChar filePath sep).filter fun p => ¬ p = ""
      if parts.length ≤ 1 then acc
      else
        acc ++ (List.range (parts.length - 1)).map fun i =>
          joinWith (sepStr sep) (parts.take (i + 1)))
    []

/-- The per-entry `allow` decision inside `serveDirectoryListing`
(`main.ts:1845-1855`). -/
def listingEntryAllowed (sep : Char) (enableWhitelist : Bool)
    (whitelistFiles whitelistDirSet : List String)
    (servedRealPath dirPath : String) (file : Dirent) : Bool :=
  if enableWhitelist then
    let currentEntryPath := pathJoinName sep dirPath file.name
    let relativePath := pathRelative sep servedRealPath currentEntryPath
    if file.kind = FileKind.directory then
      whitelistFiles.contains relativePath ∨ whitelistDirSet.contains relativePath
    else whitelistFiles.contains relativePath
  else true

/-- Embeds `serveDirectoryListing` (`main.ts:1769-1873`): a `readdir`
failure is a 500, otherwise a 200 HTML listing whose entries are
filtered by the whitelist decision above (the HTML text and its sort
order are presentation and are represented by the allowed names). -/
def serveDirectoryListing (sep : Char) (fs : FileSystem)
    (dirPath pathname : String) (enableWhitelist : Bool)
    (whitelistFiles : List String) (servedRealPath : String) : Resp :=
  let whitelistDirSet :=
    if enableWhitelist then buildWhitelistDirectorySet sep whitelistFiles else []
  match fs.readdir dirPath with
  | none =>
    plainResp 500 "Internal Server Error: Could not read directory"
  | some files =>
    let allowed := files.filter
      (listingEntryAllowed sep enableWhitelist whitelistFiles whitelistDirSet
        servedRealPath dirPath)
    ⟨200, none, RTag.dirListing (allowed.map fun f => f.name), false, none,
      none, false⟩

/-! ## Index endpoint (`main.ts:1502-1724`) -/

/-- One cached index entry (`main.ts:34-38`). -/
structure IndexCacheEntry where
  etag : String
  createdAt : Int
  payload : String
deriving DecidableEq, Repr

/-- The `indexCache` JS `Map`, as an association list with unique keys. -/
abbrev IndexCache := List (String × IndexCacheEntry)

/-- Lookup in the index cache. -/
def cacheGet (c : IndexCache) (k : String) : Option IndexCacheEntry :=
  (c.find? fun p => p.1 = k).map fun p => p.2

/-- Update of the index cache (`Map.prototype.set`). -/
def cacheSet (c : IndexCache) (k : String) (v : IndexCacheEntry) : IndexCache :=
  (k, v) :: c.filter fun p => ¬ p.1 = k

/-- JS `replace(/^\./, '')`: strip one leading dot. -/
def stripLeadingDot (s : String) : String :=
  if strStartsWith s "." then strDrop s 1 else s

/-- Embeds `parseIndexExtensions` (`main.ts:1595-1608`). -/
def parseIndexExtensions (value : Option String) : List String :=
  match value with
  | none => DEFAULT_INDEX_EXTENSIONS
  | some v =>
    if v = "" then DEFAULT_INDEX_EXTENSIONS
    else
      let items := ((splitChar v ',').map fun i =>
        stripLeadingDot (toLowerStr (trimString i))).filter fun i => ¬ i = ""
      if items = [] then DEFAULT_INDEX_EXTENSIONS
      else dedupKeepFirst items

/-- Embeds `normalizeIndexPath` (`main.ts:1610-1616`). -/
def normalizeIndexPath (value : String) : String :=
  let normalized := stripLeadingSlashes (posixNormalizeAbs ("/" ++ value))
  if normalized = "." ∨ normalized = "/" then "" else normalized

/-- Embeds `resolveIndexDirectory` (`main.ts:1618-1633`): realpath the
joined target, require containment in the served root and that it is a
directory; any failure is `null`. -/
def resolveIndexDirectory (sep : Char) (fs : FileSystem)
    (servedRealPath relativePath : String) : Option String :=
  match fs.realpath (pathJoin sep servedRealPath relativePath) with
  | none => none
  | some resolved =>
    if ¬ isPathInside sep servedRealPath resolved = true then none
    else
      match fs.stat resolved with
      | StatResult.ok stats =>
        if stats.kind = FileKind.directory then some resolved else none
      | _ => none

/-- Embeds `normalizeWhitelist` (`main.ts:1635-1637`): forward-slash
normalize every whitelist entry (a JS `Set`, used for membership only). -/
def normalizeWhitelist (sep : Char) (values : List String) : List String :=
  values.map (toPosixSep sep)

/-- Embeds `buildIndexCacheKey` (`main.ts:1639-1651`); `sha1` models
`crypto.createHash('sha1')...digest('hex')`. -/
def buildIndexCacheKey (sha1 : String → String) (entry : ServerEntrySettings)
    (relativePath : String) (extensions : List String) (recursive : Bool) :
    String :=
  let extensionKey := joinWith "," (sortStrings extensions)
  let whitelistKey :=
    if entry.enableWhitelist then sha1 (joinWith "|" entry.whitelistFiles)
    else "all"
  entry.id ++ "|" ++ relativePath ++ "|" ++ (if recursive then "r" else "n") ++
    "|" ++ extensionKey ++ "|" ++ whitelistKey

/-- Result record of `collectIndexItems` (`main.ts:1653-1724`): the
serialized items array, the running content hash, and the error
message (non-empty on a readdir failure). -/
structure CollectResult where
  itemsJson : String
  etag : String
  errorMessage : String
deriving DecidableEq, Repr

/-- The `JSON.stringify({basePath, items, generatedAt})` payload shape
(`main.ts:1573-1577`). -/
def mkIndexPayload (basePath itemsJson generatedAt : String) : String :=
  "\x7b\"basePath\":\"" ++ basePath ++ "\",\"items\":" ++ itemsJson ++
    ",\"generatedAt\":\"" ++ generatedAt ++ "\"\x7d"

/-! ## Environment

Everything outside the embedded control flow: the host separator, the
filesystem, the vault adapter, the clock, and the library/collaborator
functions the server calls as black boxes (hashing, date parsing,
percent-coding, the document renderer), plus the directory traversal
`collectIndexItems` (`main.ts:1653-1724`), whose parameters are passed
through unchanged and whose internals none of the claims observe. -/
structure Env where
  sep : Char
  fs : FileSystem
  vault : VaultModel
  now : Int
  isoNow : String
  sha1 : String → String
  dateParse : String → Option Int
  decodeUriComponent : String → Option String
  encodeUriComponent : String → String
  collectItems : String → String → List String → Bool → Option (List String) →
    Option String → Bool → CollectResult
  renderPreview : String → Resp
  tokens : TokenMap

/-- Embeds `handleIndexRequest` (`main.ts:1502-1593`): resolve the
requested sub-directory (404 on failure), then serve a fresh-enough
cached entry verbatim (304 when `If-None-Match` contains its ETag),
otherwise recompute via `collectItems`, cache the result and serve it. -/
def handleIndexRequest (env : Env) (entry : ServerEntrySettings)
    (servedRealPath : String) (req : Request) (cache : IndexCache) :
    Resp × IndexCache :=
  let extensions := parseIndexExtensions req.extParam
  let recursive : Bool := ¬ req.recursiveParam = some "0"
  let relativePath := normalizeIndexPath (req.pathParam.getD "")
  match resolveIndexDirectory env.sep env.fs servedRealPath relativePath with
  | none => (plainResp 404 "Not Found", cache)
  | some resolvedDir =>
    let vaultBasePath := env.vault.basePath
    let enforceVaultFiles : Bool :=
      match vaultBasePath with
      | some b => isPathInside env.sep b servedRealPath
      | none => false
    let whitelistSet : Option (List String) :=
      if entry.enableWhitelist then
        some (normalizeWhitelist env.sep entry.whitelistFiles)
      else none
    let cacheKey := buildIndexCacheKey env.sha1 entry relativePath extensions recursive
    let etagHeader := req.ifNoneMatch.getD ""
    match cacheGet cache cacheKey with
    | some cached =>
      if env.now - cached.createdAt ≤ INDEX_CACHE_TTL_MS then
        if etagHeader ≠ "" ∧ strContains etagHeader cached.etag then
          (⟨304, none, RTag.indexJson, false, some cached.etag, none, false⟩, cache)
        else
          (⟨200,
            (if ¬ toUpperStr req.method = "HEAD" then some cached.payload else none),
            RTag.indexJson, false, some cached.etag, none, false⟩, cache)
      else
        let result := env.collectItems resolvedDir servedRealPath extensions
          recursive whitelistSet vaultBasePath enforceVaultFiles
        if result.errorMessage ≠ "" then
          (plainResp 500 result.errorMessage, cache)
        else
          let payload := mkIndexPayload relativePath result.itemsJson env.isoNow
          (⟨200,
            (if ¬ toUpperStr req.method = "HEAD" then some payload else none),
            RTag.indexJson, false, some result.etag, none, false⟩,
            cacheSet cache cacheKey ⟨result.etag, env.now, payload⟩)
    | none =>
      let result := env.collectItems resolvedDir servedRealPath extensions
        recursive whitelistSet vaultBasePath enforceVaultFiles
      if result.errorMessage ≠ "" then
        (plainResp 500 result.errorMessage, cache)
      else
        let payload := mkIndexPayload relativePath result.itemsJson env.isoNow
        (⟨200,
          (if ¬ toUpperStr req.method = "HEAD" then some payload else none),
          RTag.indexJson, false, some result.etag, none, false⟩,
          cacheSet cache cacheKey ⟨result.etag, env.now, payload⟩)

/-! ## Request router (`main.ts:1165-1499`) -/

/-- The common tail of the preview endpoint (`main.ts:1244-1270`): the
obtained path must lie inside the vault, be a regular file and be
markdown; then the renderer runs. -/
def markdownPreviewFinish (env : Env) (previewPath : String) : Resp :=
  match env.vault.basePath with
  | none => plainResp 403 "Forbidden: File is outside vault."
  | some vaultBasePath =>
    if ¬ isPathInside env.sep vaultBasePath previewPath = true then
      plainResp 403 "Forbidden: File is outside vault."
    else
      match env.fs.stat previewPath with
      | StatResult.ok stats =>
        if ¬ stats.kind = FileKind.file then plainResp 404 "Not Found"
        else if ¬ isMarkdownFile previewPath = true then
          plainResp 403 "Forbidden: Not a markdown file."
        else env.renderPreview previewPath
      | _ => plainResp 404 "Not Found"

/-- The preview endpoint branch of `handleRequest`
(`main.ts:1205-1270`): with no token, `allowLocalhostNoToken` and a
loopback peer, the raw URL path is resolved directly against the vault;
otherwise the token is resolved (invalid/expired is a 403). -/
def markdownPreviewBranch (env : Env) (entry : ServerEntrySettings)
    (req : Request) : Resp :=
  let previewToken := req.tokenParam.getD ""
  if previewToken = "" ∧ entry.allowLocalhostNoToken = true ∧
      isLocalhostRequest req.remoteAddress = true then
    match env.vault.basePath with
    | none => plainResp 503 "Service Unavailable"
    | some vaultBasePath =>
      let normalizedPath := stripLeadingSlashes req.rawPathname
      match env.fs.realpath (pathJoin env.sep vaultBasePath normalizedPath) with
      | none => plainResp 404 "Not Found"
      | some resolvedPath =>
        if ¬ isPathInside env.sep vaultBasePath resolvedPath = true then
          plainResp 403 "Forbidden: File is outside vault."
        else markdownPreviewFinish env resolvedPath
  else
    match (resolvePreviewToken env.now (some previewToken) env.tokens).1 with
    | none => plainResp 403 "Forbidden: Invalid or expired preview token."
    | some previewPath => markdownPreviewFinish env previewPath

/-- The common tail of the asset endpoint (`main.ts:1314-1358`): decode
the `path` query parameter, resolve it against the vault, require
containment, an image/PDF extension and a stat success, then serve the
file (no conditional headers are forwarded here). -/
def markdownAssetFinish (env : Env) (req : Request) : Resp :=
  match env.decodeUriComponent (req.pathParam.getD "") with
  | none => plainResp 400 "Bad Request: Invalid asset path."
  | some assetVaultPath =>
    match env.vault.basePath with
    | none => plainResp 503 "Service Unavailable"
    | some vaultBasePath =>
      let normalizedVaultPath := stripLeadingSlashes assetVaultPath
      match env.fs.realpath (pathJoin env.sep vaultBasePath normalizedVaultPath) with
      | none => plainResp 404 "Not Found"
      | some resolvedAssetPath =>
        if ¬ isPathInside env.sep vaultBasePath resolvedAssetPath = true then
          plainResp 403 "Forbidden"
        else if ¬ isImageFile resolvedAssetPath = true ∧
            ¬ isPdfFile resolvedAssetPath = true then
          plainResp 403 "Forbidden: Not an image or PDF."
        else
          match env.fs.stat resolvedAssetPath with
          | StatResult.ok stats =>
            serveFile env.dateParse resolvedAssetPath stats req.method none none
          | _ => plainResp 404 "Not Found"

/-- The asset endpoint branch of `handleRequest` (`main.ts:1272-1358`):
the token (or the localhost direct form) only gates access; the served
file comes from the `path` query parameter. -/
def markdownAssetBranch (env : Env) (entry : ServerEntrySettings)
    (req : Request) : Resp :=
  let previewToken := req.tokenParam.getD ""
  if previewToken = "" ∧ entry.allowLocalhostNoToken = true ∧
      isLocalhostRequest req.remoteAddress = true then
    match env.decodeUriComponent (req.pathParam.getD "") with
    | none => plainResp 400 "Bad Request: Invalid asset path."
    | some assetVaultPath =>
      match env.vault.basePath with
      | none => plainResp 503 "Service Unavailable"
      | some vaultBasePath =>
        let normalizedVaultPath := stripLeadingSlashes assetVaultPath
        match env.fs.realpath (pathJoin env.sep vaultBasePath normalizedVaultPath) with
        | none => plainResp 404 "Not Found"
        | some resolvedAssetPath =>
          if ¬ isPathInside env.sep vaultBasePath resolvedAssetPath = true then
            plainResp 403 "Forbidden"
          else markdownAssetFinish env req
  else
    match (resolvePreviewToken env.now (some previewToken) env.tokens).1 with
    | none => plainResp 403 "Forbidden: Invalid or expired preview token."
    | some _ => markdownAssetFinish env req

/-- The POSIX-normalized, `..`-stripped, NUL-free request path
(`main.ts:1388-1390`). -/
def cleanRequestPath (pathname : String) : String :=
  removeNulChars (stripLeadingDotDot (posixNormalizeAbs ("/" ++ pathname)))

/-- Embeds `isVaultFileResolvedPath` (`main.ts:901-910`). -/
def isVaultFileResolvedPath (sep : Char) (tracked : String → Bool)
    (basePath resolvedPath : String) : Bool :=
  let relative := pathRelative sep basePath resolvedPath
  if relative = "" ∨ strStartsWith relative ".." = true ∨
      isAbsolutePath relative = true then false
  else tracked (toPosixSep sep relative)

/-- The `Location` header of the 301 directory redirect
(`main.ts:1452`). -/
def redirectLocation (encodeUriComponent : String → String)
    (cleanPathname : String) : String :=
  joinWith "/" ((splitChar cleanPathname '/').map encodeUriComponent) ++ "/"

/-- The whitelist gate of `handleRequest` (`main.ts:1427-1446`): with
whitelisting enabled, a directory passes when it is itself listed, some
whitelisted path extends it by the native separator, or it is the root
and the whitelist is non-empty; a file passes only when its native
relative path is listed verbatim. -/
def whitelistRejectResp (sep : Char) (entry : ServerEntrySettings)
    (relativePath : String) (kind : FileKind) : Option Resp :=
  if entry.enableWhitelist then
    if kind = FileKind.directory then
      let hasAny : Bool := ¬ entry.whitelistFiles = []
      let hasMatch := entry.whitelistFiles.any fun file =>
        file = relativePath ∨ strStartsWith file (relativePath ++ sepStr sep)
      if ¬ (hasMatch = true ∨ (relativePath = "" ∧ hasAny = true)) then
        some (plainResp 403 "Forbidden: Directory not whitelisted.")
      else none
    else if kind = FileKind.file then
      if ¬ entry.whitelistFiles.contains relativePath = true then
        some (plainResp 403 "Forbidden: File not whitelisted.")
      else none
    else none
  else none

/-- The vault-membership gate of the file branch (`main.ts:1383-1386`
with `main.ts:1464-1468`): rejection requires the served root to lie
inside the vault base and the resolved path not to be a tracked vault
file. -/
def vaultFileGateRejects (env : Env) (servedRealPath resolvedPath : String) : Bool :=
  match env.vault.basePath with
  | some b =>
    isPathInside env.sep b servedRealPath &&
      ! isVaultFileResolvedPath env.sep env.vault.tracked b resolvedPath
  | none => false

/-- The tail of `handleRequest` after the bearer gate
(`main.ts:1377-1499`): the null-root 503, the vault-enforcement flag,
path normalization, the `__index.json` dispatch, realpath resolution
(404 on failure), the containment check (403 on escape), stat (404
`ENOENT` / 500 otherwise), the whitelist gate, and the
directory/file/other classification. -/
def handleRequestResolved (env : Env) (entry : ServerEntrySettings)
    (servedRealPath : Option String) (req : Request) (cache : IndexCache) :
    Resp :=
  match servedRealPath with
  | none => plainResp 503 "Service Unavailable: Server configuration error."
  | some servedRealPath =>
    let cleanPathname := cleanRequestPath req.pathname
    if cleanPathname = "/__index.json" then
      (handleIndexRequest env entry servedRealPath req cache).1
    else
      match env.fs.realpath (pathJoin env.sep servedRealPath cleanPathname) with
      | none => plainResp 404 "Not Found"
      | some resolvedPath =>
        if ¬ strStartsWith resolvedPath (servedRealPath ++ sepStr env.sep) = true ∧
            resolvedPath ≠ servedRealPath then
          plainResp 403 "Forbidden"
        else
          match env.fs.stat resolvedPath with
          | StatResult.errEnoent => plainResp 404 "Not Found"
          | StatResult.errOther => plainResp 500 "Internal Server Error"
          | StatResult.ok stats =>
            let relativePath := pathRelative env.sep servedRealPath resolvedPath
            match whitelistRejectResp env.sep entry relativePath stats.kind with
            | some r => r
            | none =>
              if stats.kind = FileKind.directory then
                if ¬ strEndsWith cleanPathname "/" = true then
                  ⟨301, some "Redirecting to directory.", RTag.redirect, false,
                    none, some (redirectLocation env.encodeUriComponent cleanPathname),
                    false⟩
                else
                  serveDirectoryListing env.sep env.fs resolvedPath cleanPathname
                    entry.enableWhitelist entry.whitelistFiles servedRealPath
              else if stats.kind = FileKind.file then
                if req.previewParam = some "1" ∧ isMarkdownFile resolvedPath = true then
                  env.renderPreview resolvedPath
                else if vaultFileGateRejects env servedRealPath resolvedPath = true then
                  plainResp 404 "Not Found"
                else
                  serveFile env.dateParse resolvedPath stats req.method
                    req.ifNoneMatch req.ifModifiedSince
              else plainResp 403 "Forbidden"

/-- Embeds `handleRequest` (`main.ts:1165-1499`): method gate, the two
reserved preview/asset endpoints, the bearer-token gate, then the
resolved tail above.  The malformed-URL 400 branch (`main.ts:1199-1203`)
is outside the model: `req.pathname` is the successfully decoded
pathname. -/
def handleRequest (env : Env) (entry : ServerEntrySettings)
    (servedRealPath : Option String) (req : Request) (cache : IndexCache) :
    Resp :=
  let method := toUpperStr req.method
  if method ≠ "GET" ∧ method ≠ "HEAD" then
    plainResp 405 "Method Not Allowed"
  else if req.pathname = MARKDOWN_PREVIEW_ENDPOINT then
    markdownPreviewBranch env entry req
  else if req.pathname = MARKDOWN_PREVIEW_ASSET_ENDPOINT then
    markdownAssetBranch env entry req
  else if entry.authToken ≠ "" then
    match req.authorization with
    | none => unauthorizedResp
    | some authHeader =>
      if ¬ strStartsWith authHeader "Bearer " = true then unauthorizedResp
      else if strDrop authHeader 7 ≠ entry.authToken then
        plainResp 403 "Forbidden: Invalid authentication token."
      else handleRequestResolved env entry servedRealPath req cache
  else handleRequestResolved env entry servedRealPath req cache

/-! ## Server manager (`main.ts:962-1148`) -/

/-- Per-entry lifecycle status (`RunningServerInfo.status`). -/
inductive ServerStatus
  | stopped
  | running
  | error
deriving DecidableEq, Repr

/-- Embeds `RunningServerInfo` (`main.ts:57-63`); `hasServer` is the
non-nullity of the listener handle. -/
structure RunningServerInfo where
  hasServer : Bool
  entry : ServerEntrySettings
  servedRealPath : Option String
  status : ServerStatus
  errorMessage : Option String
deriving Repr

/-- The environment of one start-all cycle: the outcome of
`resolveServedPath` (`main.ts:913-960`, canonical root or `null`,
determined by the configured path and the filesystem), of reading the
TLS material, and of binding the listener. -/
structure StartEnv where
  resolveServedPath : ServerEntrySettings → Option String
  readSslMaterial : ServerEntrySettings → Bool
  bindOk : ServerEntrySettings → Bool

/-- The `runningServers` map, as an association list keyed by entry id. -/
abbrev ServerMap := List (String × RunningServerInfo)

/-- Lookup in the running-servers map. -/
def serverMapGet (m : ServerMap) (k : String) : Option RunningServerInfo :=
  (m.find? fun p => p.1 = k).map fun p => p.2

/-- Update of the running-servers map (`Map.prototype.set`). -/
def serverMapSet (m : ServerMap) (k : String) (v : RunningServerInfo) :
    ServerMap :=
  (k, v) :: m.filter fun p => ¬ p.1 = k

/-- The eventual per-entry outcome of the start loop body
(`main.ts:992-1148`): an unresolvable root or failed TLS material marks
the entry `error` without a listener; otherwise the listener is created
and the asynchronous `listen`/`error` callbacks settle the status to
`running` on a successful bind and `error` otherwise. -/
def startEntry (senv : StartEnv) (entry : ServerEntrySettings) :
    RunningServerInfo :=
  match senv.resolveServedPath entry with
  | none => ⟨false, entry, none, ServerStatus.error, some "Invalid serve folder"⟩
  | some servedRealPath =>
    if entry.enableHttps = true ∧ (entry.sslCertPath = "" ∨ entry.sslKeyPath = "") then
      ⟨false, entry, some servedRealPath, ServerStatus.error, some "SSL paths not set"⟩
    else if entry.enableHttps = true ∧ ¬ senv.readSslMaterial entry = true then
      ⟨false, entry, some servedRealPath, ServerStatus.error, some "SSL file error"⟩
    else if senv.bindOk entry then
      ⟨true, entry, some servedRealPath, ServerStatus.running, none⟩
    else
      ⟨false, entry, some servedRealPath, ServerStatus.error, some "bind failure"⟩

/-- Embeds the loop of `startAllServers` (`main.ts:963-1148`): after the
stop-all and `runningServers.clear()`, each configured entry is started
independently and its outcome recorded under its id; a `continue` on one
entry never touches its siblings' records. -/
def startAllServers (senv : StartEnv) (entries : List ServerEntrySettings) :
    ServerMap :=
  entries.foldl (fun m entry => serverMapSet m entry.id (startEntry senv entry)) []

/-- Embeds the per-connection dispatch closure (`main.ts:999-1018`): a
missing, errored, root-less or listener-less record is a 503, otherwise
the request is handled with that entry's settings and root. -/
def requestHandler (env : Env) (servers : ServerMap) (entryId : String)
    (req : Request) (cache : IndexCache) : Resp :=
  match serverMapGet servers entryId with
  | none =>
    ⟨503, some "Service Unavailable: Server configuration missing or invalid.",
      RTag.plain, false, none, none, false⟩
  | some info =>
    if info.status = ServerStatus.error ∨ info.servedRealPath = none ∨
        info.hasServer = false then
      ⟨503, some "Service Unavailable: Server configuration missing or invalid.",
        RTag.plain, false, none, none, false⟩
    else handleRequest env info.entry info.servedRealPath req cache

/-! ## Helper lemmas -/

lemma strContains_ne_empty {h n : String} (hn : n.data ≠ []) (hc : strContains h n = true) :
    h ≠ "" := by
  intro he
  subst he
  simp only [strContains, List.range, List.range.loop, List.any_cons, List.any_nil,
    Bool.or_false] at hc
  cases hd : n.data with
  | nil => exact hn hd
  | cons a as =>
    rw [hd] at hc
    simp [List.isPrefixOf] at hc

lemma buildFileEtag_data_ne_empty (stats : Stats) : (buildFileEtag stats).data ≠ [] := by
  simp [buildFileEtag, String.data_append]

lemma serveFile_304
    (dateParse : String → Option Int) (filePath : String) (stats : Stats)
    (method : String) (inm ims : Option String)
    (hcond : strContains (inm.getD "") (buildFileEtag stats) = true ∨
      (∃ h since, ims = some h ∧ h ≠ "" ∧ dateParse h = some since ∧
        stats.mtimeMs ≤ since)) :
    serveFile dateParse filePath stats method inm ims =
      ⟨304, none, RTag.notModified, false, some (buildFileEtag stats), none, false⟩ := by
  unfold serveFile
  rcases hcond with hc | ⟨h, since, hims, hne, hparse, hle⟩
  · rw [if_pos ⟨strContains_ne_empty (buildFileEtag_data_ne_empty stats) hc, hc⟩]
  · by_cases hg : (inm.getD "" ≠ "" ∧ strContains (inm.getD "") (buildFileEtag stats) = true)
    · rw [if_pos hg]
    · rw [if_neg hg, hims]
      simp only [hne, ite_false, hparse, hle, ite_true, if_neg, if_pos]

lemma mem_of_mapGet {m : TokenMap} {t : String} {i : PreviewTokenInfo}
    (h : mapGet m t = some i) : (t, i) ∈ m := by
  unfold mapGet at h
  cases hf : m.find? (fun p => p.1 = t) with
  | none => rw [hf] at h; simp at h
  | some p =>
    rw [hf] at h
    simp at h
    have hm := List.mem_of_find?_eq_some hf
    have hp := List.find?_some hf
    simp only [decide_eq_true_eq] at hp
    cases p with
    | mk a b =>
      simp only at hp h
      subst hp
      subst h
      exact hm

lemma mem_prune {now : Int} {m : TokenMap} {t : String} {i : PreviewTokenInfo}
    (h : (t, i) ∈ prunePreviewTokens now m) : (t, i) ∈ m ∧ ¬ i.expiresAt ≤ now := by
  unfold prunePreviewTokens at h
  have := List.mem_filter.mp h
  simpa using this

lemma mem_mapSet {m : TokenMap} {k : String} {v : PreviewTokenInfo} {t : String}
    {i : PreviewTokenInfo} (h : (t, i) ∈ mapSet m k v) :
    (t = k ∧ i = v) ∨ ((t, i) ∈ m ∧ t ≠ k) := by
  unfold mapSet at h
  rcases List.mem_cons.mp h with h1 | h2
  · left
    exact ⟨congrArg Prod.fst h1, congrArg Prod.snd h1⟩
  · right
    have := List.mem_filter.mp h2
    simpa using this

lemma mem_applyTokenOp {m : TokenMap} {op : TokenOp} {t : String} {i : PreviewTokenInfo}
    (h : (t, i) ∈ applyTokenOp m op) :
    (t, i) ∈ m ∨
      op = TokenOp.issue (i.expiresAt - MARKDOWN_PREVIEW_TOKEN_TTL_MS) t i.filePath := by
  cases op with
  | issue now tok p =>
    unfold applyTokenOp issuePreviewToken at h
    rcases mem_mapSet h with ⟨rfl, rfl⟩ | ⟨h2, _⟩
    · right
      simp [MARKDOWN_PREVIEW_TOKEN_TTL_MS]
    · exact Or.inl (mem_prune h2).1
  | resolveStep now tok =>
    left
    unfold applyTokenOp resolvePreviewToken at h
    cases tok with
    | none => exact h
    | some s =>
      by_cases hs : s = ""
      · simp only [hs, if_pos rfl] at h
        exact h
      · simp only [hs, if_neg, ite_false] at h
        cases hm : mapGet (prunePreviewTokens now m) s <;>
          rw [hm] at h <;> exact (mem_prune h).1

lemma mem_runTokenOps {ops : List TokenOp} :
    ∀ {m : TokenMap} {t : String} {i : PreviewTokenInfo}, (t, i) ∈ runTokenOps m ops →
      (t, i) ∈ m ∨
        TokenOp.issue (i.expiresAt - MARKDOWN_PREVIEW_TOKEN_TTL_MS) t i.filePath ∈ ops := by
  induction ops with
  | nil => intro m t i h; exact Or.inl h
  | cons op ops ih =>
    intro m t i h
    rcases ih h with hm | hop
    · rcases mem_applyTokenOp hm with h1 | h2
      · exact Or.inl h1
      · exact Or.inr (h2 ▸ List.mem_cons_self _ _)
    · exact Or.inr (List.mem_cons_of_mem _ hop)

lemma resolve_some_mem {now : Int} {t : String} {m : TokenMap} {p : String}
    (h : (resolvePreviewToken now (some t) m).1 = some p) :
    ∃ e, (t, ⟨p, e⟩) ∈ m ∧ now < e := by
  unfold resolvePreviewToken at h
  by_cases hs : t = ""
  · simp [hs] at h
  · simp only [hs, if_neg, ite_false] at h
    cases hm : mapGet (prunePreviewTokens now m) t with
    | none => rw [hm] at h; simp at h
    | some info =>
      rw [hm] at h
      simp only at h
      have hmem := mem_prune (mem_of_mapGet hm)
      refine ⟨info.expiresAt, ?_, by omega⟩
      cases info with
      | mk fp e =>
        simp only at h
        cases h
        exact hmem.1

/-! ## Claims -/

/-- C5: file serving computes the weak ETag deterministically from the
file's (size, modification-time) — stats agreeing on those fields give
identical tags — and a request whose `If-None-Match` contains that tag,
or whose `If-Modified-Since` parses to a date at or after the
modification time, receives 304 with no body and without opening the
file. -/
theorem C5_conditional_request_caching
    (dateParse : String → Option Int) (filePath : String) (s₁ s₂ : Stats)
    (hsize : s₁.size = s₂.size) (hmtime : s₁.mtimeMs = s₂.mtimeMs)
    (method : String) (inm ims : Option String)
    (hcond : strContains (inm.getD "") (buildFileEtag s₁) = true ∨
      (∃ h since, ims = some h ∧ h ≠ "" ∧ dateParse h = some since ∧
        s₁.mtimeMs ≤ since)) :
    buildFileEtag s₁ = buildFileEtag s₂ ∧
      serveFile dateParse filePath s₁ method inm ims =
        ⟨304, none, RTag.notModified, false, some (buildFileEtag s₁), none, false⟩ := by
  constructor
  · simp [buildFileEtag, hsize, hmtime]
  · exact serveFile_304 dateParse filePath s₁ method inm ims hcond

/-- Witness for C5 at a concrete file and header. -/
theorem C5_conditional_request_caching_witness :
    strContains ((some "W/\"5-1000\"" : Option String).getD "")
      (buildFileEtag ⟨FileKind.file, 5, 1000⟩) = true ∧
    serveFile (fun _ => none) "/v/f.txt" ⟨FileKind.file, 5, 1000⟩ "GET"
      (some "W/\"5-1000\"") none =
      ⟨304, none, RTag.notModified, false,
        some (buildFileEtag ⟨FileKind.file, 5, 1000⟩), none, false⟩ :=
  ⟨by decide,
    (C5_conditional_request_caching (fun _ => none) "/v/f.txt"
      ⟨FileKind.file, 5, 1000⟩ ⟨FileKind.file, 5, 1000⟩ rfl rfl "GET"
      (some "W/\"5-1000\"") none (Or.inl (by decide))).2⟩

/-- C9: over any sequence of preview-token operations, a successful
resolve returns exactly the path bound by an issue of that token made
less than the 2-minute TTL before the resolve; a token all of whose
issues are at least the TTL old (in particular an unknown token, with
no issues at all) resolves to null; a token only ever issued for file A
never resolves to another file; and a token resolved within the TTL of
its issue yields the issued path. -/
theorem C9_preview_token_scoping (ops : List TokenOp) (now : Int) (t : String) :
    (∀ p, (resolvePreviewToken now (some t) (runTokenOps [] ops)).1 = some p →
      ∃ t₀, TokenOp.issue t₀ t p ∈ ops ∧ now - t₀ < MARKDOWN_PREVIEW_TOKEN_TTL_MS) ∧
    ((∀ t₀ q, TokenOp.issue t₀ t q ∈ ops → t₀ + MARKDOWN_PREVIEW_TOKEN_TTL_MS ≤ now) →
      (resolvePreviewToken now (some t) (runTokenOps [] ops)).1 = none) ∧
    (∀ pA pB, (∀ t₀ q, TokenOp.issue t₀ t q ∈ ops → q = pA) →
      (resolvePreviewToken now (some t) (runTokenOps [] ops)).1 = some pB → pB = pA) ∧
    (∀ (m : TokenMap) (t₀ : Int) (p : String) (now₂ : Int), t ≠ "" →
      now₂ < t₀ + MARKDOWN_PREVIEW_TOKEN_TTL_MS →
      (resolvePreviewToken now₂ (some t) (issuePreviewToken t₀ t p m)).1 = some p) := by
  have key : ∀ p, (resolvePreviewToken now (some t) (runTokenOps [] ops)).1 = some p →
      ∃ t₀, TokenOp.issue t₀ t p ∈ ops ∧ now - t₀ < MARKDOWN_PREVIEW_TOKEN_TTL_MS := by
    intro p hp
    obtain ⟨e, hmem, hlt⟩ := resolve_some_mem hp
    rcases mem_runTokenOps hmem with hnil | hiss
    · simp at hnil
    · exact ⟨e - MARKDOWN_PREVIEW_TOKEN_TTL_MS, hiss, by omega⟩
  refine ⟨key, ?_, ?_, ?_⟩
  · intro hall
    cases hr : (resolvePreviewToken now (some t) (runTokenOps [] ops)).1 with
    | none => rfl
    | some p =>
      obtain ⟨t₀, hmem, hlt⟩ := key p hr
      have := hall t₀ p hmem
      omega
  · intro pA pB hall hr
    obtain ⟨t₀, hmem, _⟩ := key pB hr
    exact hall t₀ pB hmem
  · intro m t₀ p now₂ ht hlt
    have hkeep : ¬ ((t₀ + MARKDOWN_PREVIEW_TOKEN_TTL_MS : Int) ≤ now₂) := by omega
    simp only [resolvePreviewToken, if_neg ht]
    simp only [issuePreviewToken, mapSet, prunePreviewTokens, List.filter_cons, mapGet]
    simp [hkeep, List.find?]

/-- Witness for C9: a token issued at 0 is dead at exactly the TTL and
alive (with its issued path) at 1000 ms. -/
theorem C9_preview_token_scoping_witness :
    ((∀ t₀ q, TokenOp.issue t₀ "tok" q ∈ [TokenOp.issue (0 : Int) "tok" "/vault/A.md"] →
      t₀ + MARKDOWN_PREVIEW_TOKEN_TTL_MS ≤ (120000 : Int)) ∧
      (resolvePreviewToken 120000 (some "tok")
        (runTokenOps [] [TokenOp.issue (0 : Int) "tok" "/vault/A.md"])).1 = none) ∧
    (("tok" : String) ≠ "" ∧ (1000 : Int) < 0 + MARKDOWN_PREVIEW_TOKEN_TTL_MS ∧
      (resolvePreviewToken 1000 (some "tok")
        (issuePreviewToken 0 "tok" "/vault/A.md" [])).1 = some "/vault/A.md") := by
  have hall : ∀ t₀ q, TokenOp.issue t₀ "tok" q ∈ [TokenOp.issue (0 : Int) "tok" "/vault/A.md"] →
      t₀ + MARKDOWN_PREVIEW_TOKEN_TTL_MS ≤ (120000 : Int) := by
    intro t₀ q h
    simp at h
    simp [h.1, MARKDOWN_PREVIEW_TOKEN_TTL_MS]
  refine ⟨⟨hall,
    (C9_preview_token_scoping [TokenOp.issue (0 : Int) "tok" "/vault/A.md"] 120000 "tok").2.1
      hall⟩,
    by decide, by decide,
    (C9_preview_token_scoping [] 0 "tok").2.2.2 [] 0 "/vault/A.md" 1000 (by decide)
      (by decide)⟩

/-! ## Server manager lemmas and C8 -/

lemma serverMapGet_filter_ne {k k' : String} (h : k ≠ k') : ∀ m : ServerMap,
    serverMapGet (m.filter fun p => ¬ p.1 = k') k = serverMapGet m k
  | [] => rfl
  | a :: as => by
    by_cases ha : a.1 = k'
    · have hak : ¬ a.1 = k := by rw [ha]; intro hh; exact h hh.symm
      rw [List.filter_cons_of_neg (by simpa using ha)]
      calc serverMapGet (as.filter fun p => ¬ p.1 = k') k
          = serverMapGet as k := serverMapGet_filter_ne h as
        _ = serverMapGet (a :: as) k := by
            unfold serverMapGet
            rw [List.find?_cons_of_neg _ (by simpa using hak)]
    · rw [List.filter_cons_of_pos (by simpa using ha)]
      by_cases hak : a.1 = k
      · unfold serverMapGet
        rw [List.find?_cons_of_pos _ (by simpa using hak),
          List.find?_cons_of_pos _ (by simpa using hak)]
      · unfold serverMapGet
        rw [List.find?_cons_of_neg _ (by simpa using hak),
          List.find?_cons_of_neg _ (by simpa using hak)]
        exact serverMapGet_filter_ne h as

lemma serverMapGet_set_self (m : ServerMap) (k : String) (v : RunningServerInfo) :
    serverMapGet (serverMapSet m k v) k = some v := by
  simp [serverMapGet, serverMapSet, List.find?]

lemma serverMapGet_set_ne (m : ServerMap) (k k' : String) (v : RunningServerInfo)
    (h : k ≠ k') : serverMapGet (serverMapSet m k' v) k = serverMapGet m k := by
  unfold serverMapSet
  have hstep : serverMapGet ((k', v) :: (m.filter fun p => ¬ p.1 = k')) k =
      serverMapGet (m.filter fun p => ¬ p.1 = k') k := by
    unfold serverMapGet
    rw [List.find?_cons_of_neg _ (by simp; intro hh; exact h hh.symm)]
  rw [hstep, serverMapGet_filter_ne h m]

lemma startAll_get_not_mem (senv : StartEnv) : ∀ (entries : List ServerEntrySettings)
    (m : ServerMap) (k : String), (∀ e ∈ entries, e.id ≠ k) →
    serverMapGet (entries.foldl (fun m e => serverMapSet m e.id (startEntry senv e)) m) k =
      serverMapGet m k
  | [], m, k, _ => rfl
  | a :: as, m, k, h => by
    rw [List.foldl_cons, startAll_get_not_mem senv as _ k (fun e he => h e (List.mem_cons_of_mem _ he))]
    exact serverMapGet_set_ne m k a.id _ (fun hh => h a (List.mem_cons_self _ _) hh.symm)

lemma startAll_get (senv : StartEnv) : ∀ (entries : List ServerEntrySettings)
    (m : ServerMap) (e : ServerEntrySettings), e ∈ entries →
    (entries.map fun x => x.id).Nodup →
    serverMapGet (entries.foldl (fun m x => serverMapSet m x.id (startEntry senv x)) m) e.id =
      some (startEntry senv e)
  | [], _, _, he, _ => absurd he (List.not_mem_nil _)
  | a :: as, m, e, he, hnodup => by
    have hnd : (∀ x ∈ as, ¬ x.id = a.id) ∧ (List.map (fun x => x.id) as).Nodup := by
      simpa using hnodup
    rcases List.mem_cons.mp he with rfl | hmem
    · rw [List.foldl_cons,
        startAll_get_not_mem senv as _ e.id (fun x hx hxe => hnd.1 x hx hxe)]
      exact serverMapGet_set_self m e.id _
    · rw [List.foldl_cons]
      exact startAll_get senv as _ e hmem hnd.2

lemma startEntry_error (senv : StartEnv) (e : ServerEntrySettings)
    (h : senv.resolveServedPath e = none ∨ senv.bindOk e = false) :
    (startEntry senv e).status = ServerStatus.error := by
  unfold startEntry
  rcases h with h | h
  · rw [h]
  · cases hr : senv.resolveServedPath e with
    | none => rfl
    | some root =>
      simp only
      split
      · rfl
      · split
        · rfl
        · simp [h]

lemma startEntry_running (senv : StartEnv) (e : ServerEntrySettings) (root : String)
    (hres : senv.resolveServedPath e = some root) (hhttps : e.enableHttps = false)
    (hbind : senv.bindOk e = true) :
    startEntry senv e = ⟨true, e, some root, ServerStatus.running, none⟩ := by
  unfold startEntry
  rw [hres]
  simp [hhttps, hbind]

theorem C8_failure_isolation (senv : StartEnv) (entries : List ServerEntrySettings)
    (e₁ e₂ : ServerEntrySettings) (h1 : e₁ ∈ entries) (h2 : e₂ ∈ entries)
    (hnodup : (entries.map fun e => e.id).Nodup)
    (hbad : senv.resolveServedPath e₁ = none ∨ senv.bindOk e₁ = false)
    (root : String) (hres : senv.resolveServedPath e₂ = some root)
    (hhttps : e₂.enableHttps = false) (hbind : senv.bindOk e₂ = true)
    (env : Env) (req : Request) (cache : IndexCache) :
    ((serverMapGet (startAllServers senv entries) e₁.id).map fun i => i.status) =
      some ServerStatus.error ∧
    ((serverMapGet (startAllServers senv entries) e₂.id).map fun i => i.status) =
      some ServerStatus.running ∧
    requestHandler env (startAllServers senv entries) e₂.id req cache =
      handleRequest env e₂ (some root) req cache := by
  have g1 := startAll_get senv entries [] e₁ h1 hnodup
  have g2 := startAll_get senv entries [] e₂ h2 hnodup
  have hrun := startEntry_running senv e₂ root hres hhttps hbind
  refine ⟨?_, ?_, ?_⟩
  · rw [show startAllServers senv entries =
      entries.foldl (fun m x => serverMapSet m x.id (startEntry senv x)) [] from rfl, g1]
    simp [startEntry_error senv e₁ hbad]
  · rw [show startAllServers senv entries =
      entries.foldl (fun m x => serverMapSet m x.id (startEntry senv x)) [] from rfl, g2, hrun]
    rfl
  · unfold requestHandler
    rw [show startAllServers senv entries =
      entries.foldl (fun m x => serverMapSet m x.id (startEntry senv x)) [] from rfl, g2, hrun]
    simp



/-- Concrete start environment for the C8 witness: only the entry with
id "good" has a resolvable root; binding always succeeds. -/
def senvC8 : StartEnv :=
  { resolveServedPath := fun e => if e.id = "good" then some "/v" else none
  , readSslMaterial := fun _ => true
  , bindOk := fun _ => true }

def entryC8bad : ServerEntrySettings :=
  ⟨"bad", "broken", "127.0.0.1", 3001, "/missing", false, [], "", false, false, "", ""⟩

def entryC8good : ServerEntrySettings :=
  ⟨"good", "ok", "127.0.0.1", 3000, "vault", false, [], "", false, false, "", ""⟩

/-- Concrete request environment for the C8 witness: one regular file
"/v/a.txt" under the root. -/
def envC8 : Env :=
  { sep := '/'
  , fs :=
    { realpath := fun p => if p = "/v/a.txt" then some "/v/a.txt" else none
    , stat := fun p =>
        if p = "/v/a.txt" then StatResult.ok ⟨FileKind.file, 3, 1000⟩
        else StatResult.errEnoent
    , readdir := fun _ => none }
  , vault := { basePath := none, tracked := fun _ => false }
  , now := 0
  , isoNow := "T0"
  , sha1 := fun _ => "H"
  , dateParse := fun _ => none
  , decodeUriComponent := fun s => some s
  , encodeUriComponent := fun s => s
  , collectItems := fun _ _ _ _ _ _ _ => ⟨"[]", "E0", ""⟩
  , renderPreview := fun p => ⟨200, some p, RTag.markdownPreview p, false, none, none, false⟩
  , tokens := [] }

def reqC8 : Request :=
  ⟨"GET", "/a.txt", "/a.txt", none, "127.0.0.1", none, none, none, none, none, none, none⟩

theorem C8_failure_isolation_witness :
    (senvC8.resolveServedPath entryC8bad = none ∧
      senvC8.resolveServedPath entryC8good = some "/v" ∧
      entryC8good.enableHttps = false ∧ senvC8.bindOk entryC8good = true ∧
      ((([entryC8bad, entryC8good].map fun e => e.id)).Nodup)) ∧
    (((serverMapGet (startAllServers senvC8 [entryC8bad, entryC8good]) entryC8bad.id).map
        fun i => i.status) = some ServerStatus.error ∧
     ((serverMapGet (startAllServers senvC8 [entryC8bad, entryC8good]) entryC8good.id).map
        fun i => i.status) = some ServerStatus.running ∧
     requestHandler envC8 (startAllServers senvC8 [entryC8bad, entryC8good])
        entryC8good.id reqC8 [] = handleRequest envC8 entryC8good (some "/v") reqC8 []) ∧
    (requestHandler envC8 (startAllServers senvC8 [entryC8bad, entryC8good])
        entryC8good.id reqC8 []).status = 200 :=
  ⟨by decide,
    C8_failure_isolation senvC8 [entryC8bad, entryC8good] entryC8bad entryC8good
      (by decide) (by decide) (by decide) (Or.inl (by decide)) "/v" (by decide)
      (by decide) (by decide) envC8 reqC8 [],
    by decide⟩

/-! ## Router gate lemmas and the path-serving claims -/

lemma handleRequest_eq_resolved (env : Env) (entry : ServerEntrySettings)
    (servedRealPath : Option String) (req : Request) (cache : IndexCache)
    (hm : toUpperStr req.method = "GET" ∨ toUpperStr req.method = "HEAD")
    (hp1 : req.pathname ≠ MARKDOWN_PREVIEW_ENDPOINT)
    (hp2 : req.pathname ≠ MARKDOWN_PREVIEW_ASSET_ENDPOINT)
    (hauth : entry.authToken = "" ∨ (∃ h, req.authorization = some h ∧
      strStartsWith h "Bearer " = true ∧ strDrop h 7 = entry.authToken)) :
    handleRequest env entry servedRealPath req cache =
      handleRequestResolved env entry servedRealPath req cache := by
  unfold handleRequest
  have hmguard : ¬ (toUpperStr req.method ≠ "GET" ∧ toUpperStr req.method ≠ "HEAD") := by
    rcases hm with h | h <;> simp [h]
  rw [if_neg hmguard, if_neg hp1, if_neg hp2]
  rcases hauth with h | ⟨a, ha, hb, ht⟩
  · rw [if_neg (by simp [h])]
  · by_cases he : entry.authToken ≠ ""
    · rw [if_pos he, ha]
      simp only
      rw [if_neg (by simp [hb]), if_neg (by simp [ht])]
    · rw [if_neg he]

lemma resolved_realpath_none (env : Env) (entry : ServerEntrySettings) (root : String)
    (req : Request) (cache : IndexCache)
    (hidx : cleanRequestPath req.pathname ≠ "/__index.json")
    (hre : env.fs.realpath (pathJoin env.sep root (cleanRequestPath req.pathname)) = none) :
    handleRequestResolved env entry (some root) req cache = plainResp 404 "Not Found" := by
  simp only [handleRequestResolved]
  rw [if_neg hidx, hre]

lemma resolved_escape (env : Env) (entry : ServerEntrySettings) (root : String)
    (req : Request) (cache : IndexCache) (r : String)
    (hidx : cleanRequestPath req.pathname ≠ "/__index.json")
    (hre : env.fs.realpath (pathJoin env.sep root (cleanRequestPath req.pathname)) = some r)
    (hesc : strStartsWith r (root ++ sepStr env.sep) = false) (hne : r ≠ root) :
    handleRequestResolved env entry (some root) req cache = plainResp 403 "Forbidden" := by
  simp only [handleRequestResolved]
  rw [if_neg hidx, hre]
  simp only
  rw [if_pos ⟨by simp [hesc], hne⟩]



lemma contained_guard (env : Env) (root r : String)
    (hcont : r = root ∨ strStartsWith r (root ++ sepStr env.sep) = true) :
    ¬ (¬ strStartsWith r (root ++ sepStr env.sep) = true ∧ r ≠ root) := by
  rcases hcont with h | h
  · exact fun hc => hc.2 h
  · exact fun hc => hc.1 h

lemma resolved_stat_ok (env : Env) (entry : ServerEntrySettings) (root : String)
    (req : Request) (cache : IndexCache) (r : String) (stats : Stats)
    (hidx : cleanRequestPath req.pathname ≠ "/__index.json")
    (hre : env.fs.realpath (pathJoin env.sep root (cleanRequestPath req.pathname)) = some r)
    (hcont : r = root ∨ strStartsWith r (root ++ sepStr env.sep) = true)
    (hst : env.fs.stat r = StatResult.ok stats) :
    handleRequestResolved env entry (some root) req cache =
      (match whitelistRejectResp env.sep entry (pathRelative env.sep root r) stats.kind with
      | some resp => resp
      | none =>
        if stats.kind = FileKind.directory then
          if ¬ strEndsWith (cleanRequestPath req.pathname) "/" = true then
            ⟨301, some "Redirecting to directory.", RTag.redirect, false, none,
              some (redirectLocation env.encodeUriComponent (cleanRequestPath req.pathname)),
              false⟩
          else
            serveDirectoryListing env.sep env.fs r (cleanRequestPath req.pathname)
              entry.enableWhitelist entry.whitelistFiles root
        else if stats.kind = FileKind.file then
          if req.previewParam = some "1" ∧ isMarkdownFile r = true then
            env.renderPreview r
          else if vaultFileGateRejects env root r = true then
            plainResp 404 "Not Found"
          else
            serveFile env.dateParse r stats req.method req.ifNoneMatch req.ifModifiedSince
        else plainResp 403 "Forbidden") := by
  simp only [handleRequestResolved]
  rw [if_neg hidx, hre]
  simp only
  rw [if_neg (contained_guard env root r hcont), hst]



/-- C1: for requests routed to path serving (not the reserved endpoints)
that pass the method and bearer gates, a 200 implies the
filesystem-resolved canonical target equals the root or extends
root + separator; a resolution failure is a 404; and a resolved target
outside the root is a 403 — never 200. -/
theorem C1_path_containment (env : Env) (entry : ServerEntrySettings) (root : String)
    (req : Request) (cache : IndexCache)
    (hm : toUpperStr req.method = "GET" ∨ toUpperStr req.method = "HEAD")
    (hp1 : req.pathname ≠ MARKDOWN_PREVIEW_ENDPOINT)
    (hp2 : req.pathname ≠ MARKDOWN_PREVIEW_ASSET_ENDPOINT)
    (hauth : entry.authToken = "" ∨ (∃ h, req.authorization = some h ∧
      strStartsWith h "Bearer " = true ∧ strDrop h 7 = entry.authToken))
    (hidx : cleanRequestPath req.pathname ≠ "/__index.json") :
    ((handleRequest env entry (some root) req cache).status = 200 →
      ∃ r, env.fs.realpath (pathJoin env.sep root (cleanRequestPath req.pathname)) = some r ∧
        (r = root ∨ strStartsWith r (root ++ sepStr env.sep) = true)) ∧
    (env.fs.realpath (pathJoin env.sep root (cleanRequestPath req.pathname)) = none →
      handleRequest env entry (some root) req cache = plainResp 404 "Not Found") ∧
    (∀ r, env.fs.realpath (pathJoin env.sep root (cleanRequestPath req.pathname)) = some r →
      strStartsWith r (root ++ sepStr env.sep) = false → r ≠ root →
      handleRequest env entry (some root) req cache = plainResp 403 "Forbidden") := by
  rw [handleRequest_eq_resolved env entry (some root) req cache hm hp1 hp2 hauth]
  refine ⟨?_, ?_, ?_⟩
  · intro h200
    cases hre : env.fs.realpath (pathJoin env.sep root (cleanRequestPath req.pathname)) with
    | none =>
      rw [resolved_realpath_none env entry root req cache hidx hre] at h200
      simp [plainResp] at h200
    | some r =>
      by_cases hcont : (r = root ∨ strStartsWith r (root ++ sepStr env.sep) = true)
      · exact ⟨r, rfl, hcont⟩
      · push_neg at hcont
        have hesc : strStartsWith r (root ++ sepStr env.sep) = false := by
          cases hval : strStartsWith r (root ++ sepStr env.sep)
          · rfl
          · exact absurd hval hcont.2
        rw [resolved_escape env entry root req cache r hidx hre hesc hcont.1] at h200
        simp [plainResp] at h200
  · intro hre
    exact resolved_realpath_none env entry root req cache hidx hre
  · intro r hre hesc hne
    exact resolved_escape env entry root req cache r hidx hre hesc hne

/-- Environment for the C1 witness: "/v/link.txt" is a symlink whose
canonical target "/etc/secret.txt" lies outside the root "/v". -/
def envC1 : Env :=
  { sep := '/'
  , fs :=
    { realpath := fun p => if p = "/v/link.txt" then some "/etc/secret.txt" else none
    , stat := fun _ => StatResult.ok ⟨FileKind.file, 3, 1000⟩
    , readdir := fun _ => none }
  , vault := { basePath := none, tracked := fun _ => false }
  , now := 0
  , isoNow := "T0"
  , sha1 := fun _ => "H"
  , dateParse := fun _ => none
  , decodeUriComponent := fun s => some s
  , encodeUriComponent := fun s => s
  , collectItems := fun _ _ _ _ _ _ _ => ⟨"[]", "E0", ""⟩
  , renderPreview := fun p => ⟨200, some p, RTag.markdownPreview p, false, none, none, false⟩
  , tokens := [] }

def entryC1 : ServerEntrySettings :=
  ⟨"c1", "e", "127.0.0.1", 3000, "v", false, [], "", false, false, "", ""⟩

def reqC1 : Request :=
  ⟨"GET", "/link.txt", "/link.txt", none, "127.0.0.1", none, none, none, none, none,
    none, none⟩

def reqC1miss : Request :=
  ⟨"GET", "/gone.txt", "/gone.txt", none, "127.0.0.1", none, none, none, none, none,
    none, none⟩

/-- Witness for C1: the symlinked input escapes and gets 403; a
non-resolving path gets 404. -/
theorem C1_path_containment_witness :
    (envC1.fs.realpath (pathJoin envC1.sep "/v" (cleanRequestPath reqC1.pathname)) =
        some "/etc/secret.txt" ∧
      strStartsWith "/etc/secret.txt" ("/v" ++ sepStr envC1.sep) = false ∧
      handleRequest envC1 entryC1 (some "/v") reqC1 [] = plainResp 403 "Forbidden") ∧
    (envC1.fs.realpath (pathJoin envC1.sep "/v" (cleanRequestPath reqC1miss.pathname)) = none ∧
      handleRequest envC1 entryC1 (some "/v") reqC1miss [] = plainResp 404 "Not Found") :=
  ⟨⟨by decide, by decide,
    (C1_path_containment envC1 entryC1 "/v" reqC1 [] (Or.inl (by decide)) (by decide)
      (by decide) (Or.inl (by decide)) (by decide)).2.2 "/etc/secret.txt" (by decide)
      (by decide) (by decide)⟩,
  ⟨by decide,
    (C1_path_containment envC1 entryC1 "/v" reqC1miss [] (Or.inl (by decide)) (by decide)
      (by decide) (Or.inl (by decide)) (by decide)).2.1 (by decide)⟩⟩



/-- Follows the spec's words (§4.2), for comparison with the code's file
whitelist check: a file would be allowed iff its root-relative path,
compared after forward-slash normalization regardless of host path
conventions, is listed. -/
def specFileWhitelistAllowed (sep : Char) (whitelistFiles : List String)
    (relativePath : String) : Bool :=
  (normalizeWhitelist sep whitelistFiles).contains (toPosixSep sep relativePath)

/-- Windows-separator environment for the C2 counterexample. -/
def envC2win : Env :=
  { sep := '\\'
  , fs :=
    { realpath := fun p => if p = "C:\\v\\a\\b.png" then some "C:\\v\\a\\b.png" else none
    , stat := fun p =>
        if p = "C:\\v\\a\\b.png" then StatResult.ok ⟨FileKind.file, 9, 1000⟩
        else StatResult.errEnoent
    , readdir := fun _ => none }
  , vault := { basePath := none, tracked := fun _ => false }
  , now := 0
  , isoNow := "T0"
  , sha1 := fun _ => "H"
  , dateParse := fun _ => none
  , decodeUriComponent := fun s => some s
  , encodeUriComponent := fun s => s
  , collectItems := fun _ _ _ _ _ _ _ => ⟨"[]", "E0", ""⟩
  , renderPreview := fun p => ⟨200, some p, RTag.markdownPreview p, false, none, none, false⟩
  , tokens := [] }

def entryC2win : ServerEntrySettings :=
  ⟨"c2", "e", "127.0.0.1", 3000, "v", true, ["a/b.png"], "", false, false, "", ""⟩

def reqC2win : Request :=
  ⟨"GET", "/a/b.png", "/a/b.png", none, "127.0.0.1", none, none, none, none, none,
    none, none⟩

/-- Counterexample to C2 as stated: on a host with separator `\`, the
file `a\b.png` is listed under forward-slash normalization (spec-side
check passes), yet the code compares the native relative path verbatim
and returns 403. -/
theorem C2_whitelist_normalization_counterexample :
    specFileWhitelistAllowed '\\' ["a/b.png"]
      (pathRelative '\\' "C:\\v" "C:\\v\\a\\b.png") = true ∧
    handleRequest envC2win entryC2win (some "C:\\v") reqC2win [] =
      plainResp 403 "Forbidden: File not whitelisted." := by
  decide

/-- C2 (amended): with whitelisting enabled, a regular-file request that
reaches the whitelist gate is rejected 403 unless the file's
root-relative path with the host's native separators is listed verbatim
(no forward-slash normalization in this check), and a listed file is
served — 200 for an unconditional request. -/
theorem C2_whitelist_exact_native_match (env : Env) (entry : ServerEntrySettings)
    (root : String) (req : Request) (cache : IndexCache)
    (hm : toUpperStr req.method = "GET" ∨ toUpperStr req.method = "HEAD")
    (hp1 : req.pathname ≠ MARKDOWN_PREVIEW_ENDPOINT)
    (hp2 : req.pathname ≠ MARKDOWN_PREVIEW_ASSET_ENDPOINT)
    (hauth : entry.authToken = "" ∨ (∃ h, req.authorization = some h ∧
      strStartsWith h "Bearer " = true ∧ strDrop h 7 = entry.authToken))
    (hidx : cleanRequestPath req.pathname ≠ "/__index.json")
    (r : String) (stats : Stats)
    (hre : env.fs.realpath (pathJoin env.sep root (cleanRequestPath req.pathname)) = some r)
    (hcont : r = root ∨ strStartsWith r (root ++ sepStr env.sep) = true)
    (hst : env.fs.stat r = StatResult.ok stats) (hfile : stats.kind = FileKind.file)
    (hwl : entry.enableWhitelist = true) :
    (entry.whitelistFiles.contains (pathRelative env.sep root r) = false →
      handleRequest env entry (some root) req cache =
        plainResp 403 "Forbidden: File not whitelisted.") ∧
    (entry.whitelistFiles.contains (pathRelative env.sep root r) = true →
      ¬ (req.previewParam = some "1" ∧ isMarkdownFile r = true) →
      vaultFileGateRejects env root r = false →
      handleRequest env entry (some root) req cache =
        serveFile env.dateParse r stats req.method req.ifNoneMatch req.ifModifiedSince) ∧
    (entry.whitelistFiles.contains (pathRelative env.sep root r) = true →
      ¬ (req.previewParam = some "1" ∧ isMarkdownFile r = true) →
      vaultFileGateRejects env root r = false →
      req.ifNoneMatch = none → req.ifModifiedSince = none →
      (handleRequest env entry (some root) req cache).status = 200) := by
  rw [handleRequest_eq_resolved env entry (some root) req cache hm hp1 hp2 hauth,
    resolved_stat_ok env entry root req cache r stats hidx hre hcont hst]
  have hkinds : ¬ stats.kind = FileKind.directory := by rw [hfile]; decide
  refine ⟨?_, ?_, ?_⟩
  · intro hnc
    have hgate : whitelistRejectResp env.sep entry (pathRelative env.sep root r)
        stats.kind = some (plainResp 403 "Forbidden: File not whitelisted.") := by
      have hnc2 : pathRelative env.sep root r ∉ entry.whitelistFiles := by simpa using hnc
      unfold whitelistRejectResp
      simp [hwl, hfile, hnc2]
    rw [hgate]
  · intro hc hnoprev hvault
    have hgate : whitelistRejectResp env.sep entry (pathRelative env.sep root r)
        stats.kind = none := by
      have hc2 : pathRelative env.sep root r ∈ entry.whitelistFiles := by simpa using hc
      unfold whitelistRejectResp
      simp [hwl, hfile, hc2]
    rw [hgate]
    simp only
    rw [if_neg hkinds, if_pos hfile]
    rw [if_neg hnoprev]
    rw [if_neg (show ¬ vaultFileGateRejects env root r = true by simp [hvault])]
  · intro hc hnoprev hvault hinm hims
    have hgate : whitelistRejectResp env.sep entry (pathRelative env.sep root r)
        stats.kind = none := by
      have hc2 : pathRelative env.sep root r ∈ entry.whitelistFiles := by simpa using hc
      unfold whitelistRejectResp
      simp [hwl, hfile, hc2]
    rw [hgate]
    simp only
    rw [if_neg hkinds, if_pos hfile]
    rw [if_neg hnoprev]
    rw [if_neg (show ¬ vaultFileGateRejects env root r = true by simp [hvault])]
    unfold serveFile
    rw [hinm, hims]
    simp only [Option.getD]
    rw [if_neg (by simp)]
    by_cases hh : toUpperStr req.method = "HEAD" <;> simp [hh]



/-- POSIX environment for the C2 witness. -/
def envC2pos : Env :=
  { sep := '/'
  , fs :=
    { realpath := fun p =>
        if p = "/v/a/b.png" then some "/v/a/b.png"
        else if p = "/v/c.png" then some "/v/c.png" else none
    , stat := fun p =>
        if p = "/v/a/b.png" ∨ p = "/v/c.png" then StatResult.ok ⟨FileKind.file, 9, 1000⟩
        else StatResult.errEnoent
    , readdir := fun _ => none }
  , vault := { basePath := none, tracked := fun _ => false }
  , now := 0
  , isoNow := "T0"
  , sha1 := fun _ => "H"
  , dateParse := fun _ => none
  , decodeUriComponent := fun s => some s
  , encodeUriComponent := fun s => s
  , collectItems := fun _ _ _ _ _ _ _ => ⟨"[]", "E0", ""⟩
  , renderPreview := fun p => ⟨200, some p, RTag.markdownPreview p, false, none, none, false⟩
  , tokens := [] }

def entryC2pos : ServerEntrySettings :=
  ⟨"c2p", "e", "127.0.0.1", 3000, "v", true, ["a/b.png"], "", false, false, "", ""⟩

def reqC2listed : Request :=
  ⟨"GET", "/a/b.png", "/a/b.png", none, "127.0.0.1", none, none, none, none, none,
    none, none⟩

def reqC2unlisted : Request :=
  ⟨"GET", "/c.png", "/c.png", none, "127.0.0.1", none, none, none, none, none,
    none, none⟩

/-- Witness for the amended C2 on a forward-slash host: the listed file
gets 200, the unlisted one 403. -/
theorem C2_whitelist_exact_native_match_witness :
    (entryC2pos.whitelistFiles.contains (pathRelative envC2pos.sep "/v" "/v/a/b.png") = true ∧
      (handleRequest envC2pos entryC2pos (some "/v") reqC2listed []).status = 200) ∧
    (entryC2pos.whitelistFiles.contains (pathRelative envC2pos.sep "/v" "/v/c.png") = false ∧
      handleRequest envC2pos entryC2pos (some "/v") reqC2unlisted [] =
        plainResp 403 "Forbidden: File not whitelisted.") :=
  ⟨⟨by decide,
    (C2_whitelist_exact_native_match envC2pos entryC2pos "/v" reqC2listed []
      (Or.inl (by decide)) (by decide) (by decide) (Or.inl (by decide)) (by decide)
      "/v/a/b.png" ⟨FileKind.file, 9, 1000⟩ (by decide) (Or.inr (by decide)) (by decide)
      (by decide) (by decide)).2.2 (by decide) (by decide) (by decide) rfl rfl⟩,
  ⟨by decide,
    (C2_whitelist_exact_native_match envC2pos entryC2pos "/v" reqC2unlisted []
      (Or.inl (by decide)) (by decide) (by decide) (Or.inl (by decide)) (by decide)
      "/v/c.png" ⟨FileKind.file, 9, 1000⟩ (by decide) (Or.inr (by decide)) (by decide)
      (by decide) (by decide)).1 (by decide)⟩⟩

/-- C7: with whitelisting enabled, a directory request whose
root-relative path is itself listed or is extended (path + separator)
by some whitelisted entry is not rejected by the whitelist gate; with a
trailing slash and a readable directory it is served as a 200 listing. -/
theorem C7_directory_whitelist_visibility (env : Env) (entry : ServerEntrySettings)
    (root : String) (req : Request) (cache : IndexCache)
    (hm : toUpperStr req.method = "GET" ∨ toUpperStr req.method = "HEAD")
    (hp1 : req.pathname ≠ MARKDOWN_PREVIEW_ENDPOINT)
    (hp2 : req.pathname ≠ MARKDOWN_PREVIEW_ASSET_ENDPOINT)
    (hauth : entry.authToken = "" ∨ (∃ h, req.authorization = some h ∧
      strStartsWith h "Bearer " = true ∧ strDrop h 7 = entry.authToken))
    (hidx : cleanRequestPath req.pathname ≠ "/__index.json")
    (r : String) (stats : Stats)
    (hre : env.fs.realpath (pathJoin env.sep root (cleanRequestPath req.pathname)) = some r)
    (hcont : r = root ∨ strStartsWith r (root ++ sepStr env.sep) = true)
    (hst : env.fs.stat r = StatResult.ok stats)
    (hdir : stats.kind = FileKind.directory)
    (hwl : entry.enableWhitelist = true)
    (hallow : pathRelative env.sep root r ∈ entry.whitelistFiles ∨
      ∃ f ∈ entry.whitelistFiles,
        strStartsWith f (pathRelative env.sep root r ++ sepStr env.sep) = true)
    (hslash : strEndsWith (cleanRequestPath req.pathname) "/" = true)
    (files : List Dirent) (hrd : env.fs.readdir r = some files) :
    handleRequest env entry (some root) req cache =
      serveDirectoryListing env.sep env.fs r (cleanRequestPath req.pathname)
        entry.enableWhitelist entry.whitelistFiles root ∧
    (handleRequest env entry (some root) req cache).status = 200 := by
  rw [handleRequest_eq_resolved env entry (some root) req cache hm hp1 hp2 hauth,
    resolved_stat_ok env entry root req cache r stats hidx hre hcont hst]
  have hmatch : (entry.whitelistFiles.any fun file =>
      file = pathRelative env.sep root r ∨
        strStartsWith file (pathRelative env.sep root r ++ sepStr env.sep)) = true := by
    rw [List.any_eq_true]
    rcases hallow with h | ⟨f, hf, hpre⟩
    · exact ⟨pathRelative env.sep root r, h, by simp⟩
    · exact ⟨f, hf, by simp [hpre]⟩
  have hgate : whitelistRejectResp env.sep entry (pathRelative env.sep root r)
      stats.kind = none := by
    unfold whitelistRejectResp
    rw [if_pos hwl, if_pos hdir]
    simp only
    rw [if_neg (not_not_intro (Or.inl hmatch))]
  rw [hgate]
  simp only
  rw [if_pos hdir, if_neg (show ¬ ¬ strEndsWith (cleanRequestPath req.pathname) "/" = true
    by simp [hslash])]
  refine ⟨rfl, ?_⟩
  unfold serveDirectoryListing
  rw [hrd]

/-- Environment for the C7 witness: directory "/v/a/b" containing only
"c.png", with only "a/b/c.png" whitelisted. -/
def envC7 : Env :=
  { sep := '/'
  , fs :=
    { realpath := fun p => if p = "/v/a/b/" then some "/v/a/b" else none
    , stat := fun p =>
        if p = "/v/a/b" then StatResult.ok ⟨FileKind.directory, 0, 0⟩
        else StatResult.errEnoent
    , readdir := fun p => if p = "/v/a/b" then some [⟨"c.png", FileKind.file⟩] else none }
  , vault := { basePath := none, tracked := fun _ => false }
  , now := 0
  , isoNow := "T0"
  , sha1 := fun _ => "H"
  , dateParse := fun _ => none
  , decodeUriComponent := fun s => some s
  , encodeUriComponent := fun s => s
  , collectItems := fun _ _ _ _ _ _ _ => ⟨"[]", "E0", ""⟩
  , renderPreview := fun p => ⟨200, some p, RTag.markdownPreview p, false, none, none, false⟩
  , tokens := [] }

def entryC7 : ServerEntrySettings :=
  ⟨"c7", "e", "127.0.0.1", 3000, "v", true, ["a/b/c.png"], "", false, false, "", ""⟩

def reqC7 : Request :=
  ⟨"GET", "/a/b/", "/a/b/", none, "127.0.0.1", none, none, none, none, none, none, none⟩

/-- Witness for C7: directory a/b, not itself whitelisted but containing
whitelisted a/b/c.png, is listed with 200. -/
theorem C7_directory_whitelist_visibility_witness :
    (pathRelative envC7.sep "/v" "/v/a/b" ∉ entryC7.whitelistFiles ∧
      strStartsWith "a/b/c.png" (pathRelative envC7.sep "/v" "/v/a/b" ++ sepStr envC7.sep) =
        true) ∧
    (handleRequest envC7 entryC7 (some "/v") reqC7 []).status = 200 :=
  ⟨by decide,
    (C7_directory_whitelist_visibility envC7 entryC7 "/v" reqC7 [] (Or.inl (by decide))
      (by decide) (by decide) (Or.inl (by decide)) (by decide) "/v/a/b"
      ⟨FileKind.directory, 0, 0⟩ (by decide) (Or.inr (by decide)) (by decide) (by decide)
      (by decide)
      (Or.inr ⟨"a/b/c.png", by decide, by decide⟩) (by decide)
      [⟨"c.png", FileKind.file⟩] (by decide)).2⟩

/-- C10: when the served root lies inside the vault base and the
resolved regular file is not tracked by the vault, a request that
passed the containment and whitelist gates gets 404 (and so never 200)
— except that a markdown file requested with preview=1 goes to the
renderer before the vault gate. -/
theorem C10_untracked_vault_file_404 (env : Env) (entry : ServerEntrySettings)
    (root : String) (req : Request) (cache : IndexCache)
    (hm : toUpperStr req.method = "GET" ∨ toUpperStr req.method = "HEAD")
    (hp1 : req.pathname ≠ MARKDOWN_PREVIEW_ENDPOINT)
    (hp2 : req.pathname ≠ MARKDOWN_PREVIEW_ASSET_ENDPOINT)
    (hauth : entry.authToken = "" ∨ (∃ h, req.authorization = some h ∧
      strStartsWith h "Bearer " = true ∧ strDrop h 7 = entry.authToken))
    (hidx : cleanRequestPath req.pathname ≠ "/__index.json")
    (r : String) (stats : Stats)
    (hre : env.fs.realpath (pathJoin env.sep root (cleanRequestPath req.pathname)) = some r)
    (hcont : r = root ∨ strStartsWith r (root ++ sepStr env.sep) = true)
    (hst : env.fs.stat r = StatResult.ok stats)
    (hfile : stats.kind = FileKind.file)
    (hwlpass : whitelistRejectResp env.sep entry (pathRelative env.sep root r)
      stats.kind = none)
    (hvault : vaultFileGateRejects env root r = true) :
    (¬ (req.previewParam = some "1" ∧ isMarkdownFile r = true) →
      handleRequest env entry (some root) req cache = plainResp 404 "Not Found" ∧
      (handleRequest env entry (some root) req cache).status ≠ 200) ∧
    (req.previewParam = some "1" ∧ isMarkdownFile r = true →
      handleRequest env entry (some root) req cache = env.renderPreview r) := by
  rw [handleRequest_eq_resolved env entry (some root) req cache hm hp1 hp2 hauth,
    resolved_stat_ok env entry root req cache r stats hidx hre hcont hst]
  have hkinds : ¬ stats.kind = FileKind.directory := by rw [hfile]; decide
  rw [hwlpass]
  simp only
  rw [if_neg hkinds, if_pos hfile]
  constructor
  · intro hnoprev
    rw [if_neg hnoprev, if_pos hvault]
    exact ⟨rfl, by simp [plainResp]⟩
  · intro hprev
    rw [if_pos hprev]

/-- Environment for the C10 witness: the root "/vault/pub" lies inside
the vault base "/vault"; the on-disk file "/vault/pub/x.txt" is not a
tracked vault file. -/
def envC10 : Env :=
  { sep := '/'
  , fs :=
    { realpath := fun p => if p = "/vault/pub/x.txt" then some "/vault/pub/x.txt" else none
    , stat := fun p =>
        if p = "/vault/pub/x.txt" then StatResult.ok ⟨FileKind.file, 7, 1000⟩
        else StatResult.errEnoent
    , readdir := fun _ => none }
  , vault := { basePath := some "/vault", tracked := fun _ => false }
  , now := 0
  , isoNow := "T0"
  , sha1 := fun _ => "H"
  , dateParse := fun _ => none
  , decodeUriComponent := fun s => some s
  , encodeUriComponent := fun s => s
  , collectItems := fun _ _ _ _ _ _ _ => ⟨"[]", "E0", ""⟩
  , renderPreview := fun p => ⟨200, some p, RTag.markdownPreview p, false, none, none, false⟩
  , tokens := [] }

def entryC10 : ServerEntrySettings :=
  ⟨"c10", "e", "127.0.0.1", 3000, "pub", false, [], "", false, false, "", ""⟩

def reqC10 : Request :=
  ⟨"GET", "/x.txt", "/x.txt", none, "127.0.0.1", none, none, none, none, none,
    none, none⟩

/-- Witness for C10: the untracked file inside the vault-contained root
is answered 404. -/
theorem C10_untracked_vault_file_404_witness :
    (vaultFileGateRejects envC10 "/vault/pub" "/vault/pub/x.txt" = true ∧
      envC10.fs.stat "/vault/pub/x.txt" = StatResult.ok ⟨FileKind.file, 7, 1000⟩) ∧
    handleRequest envC10 entryC10 (some "/vault/pub") reqC10 [] =
      plainResp 404 "Not Found" :=
  ⟨by decide,
    ((C10_untracked_vault_file_404 envC10 entryC10 "/vault/pub" reqC10 []
      (Or.inl (by decide)) (by decide) (by decide) (Or.inl (by decide)) (by decide)
      "/vault/pub/x.txt" ⟨FileKind.file, 7, 1000⟩ (by decide) (Or.inr (by decide))
      (by decide) (by decide) (by decide) (by decide)).1 (by decide)).1⟩

/-! ## Authorization routing claims -/

/-- Environment for the C3 failing input (the filesystem is never
reached: the request dies at the bearer gate). -/
def envC3 : Env :=
  { sep := '/'
  , fs :=
    { realpath := fun _ => none
    , stat := fun _ => StatResult.errEnoent
    , readdir := fun _ => none }
  , vault := { basePath := some "/v", tracked := fun _ => true }
  , now := 0
  , isoNow := "T0"
  , sha1 := fun _ => "H"
  , dateParse := fun _ => none
  , decodeUriComponent := fun s => some s
  , encodeUriComponent := fun s => s
  , collectItems := fun _ _ _ _ _ _ _ => ⟨"[]", "E0", ""⟩
  , renderPreview := fun p => ⟨200, some p, RTag.markdownPreview p, false, none, none, false⟩
  , tokens := [] }

def entryC3 : ServerEntrySettings :=
  ⟨"c3", "e", "127.0.0.1", 3000, "v", false, [], "secret", true, false, "", ""⟩

def reqC3 : Request :=
  ⟨"GET", "/note.md", "/note.md", none, "127.0.0.1", none, none, none, none, none,
    none, none⟩

/-- C3 failing input: with a non-empty authToken and
allowLocalhostNoToken set, a loopback request for an ordinary path with
no Authorization header is still rejected 401 — the localhost bypass is
implemented only inside the reserved preview/asset endpoint branches
(`main.ts:1209,1274`), not in the bearer gate (`main.ts:1361-1375`)
that guards every other path. -/
theorem C3_localhost_bypass_not_applied :
    entryC3.allowLocalhostNoToken = true ∧
    isLocalhostRequest reqC3.remoteAddress = true ∧
    reqC3.authorization = none ∧
    handleRequest envC3 entryC3 (some "/v") reqC3 [] = unauthorizedResp ∧
    (handleRequest envC3 entryC3 (some "/v") reqC3 []).status = 401 := by
  decide

/-- Environment for the C4 counterexample: the index endpoint would
succeed once authorization passes. -/
def envC4 : Env :=
  { sep := '/'
  , fs :=
    { realpath := fun p => if p = "/v" then some "/v" else none
    , stat := fun p =>
        if p = "/v" then StatResult.ok ⟨FileKind.directory, 0, 0⟩
        else StatResult.errEnoent
    , readdir := fun _ => none }
  , vault := { basePath := none, tracked := fun _ => false }
  , now := 0
  , isoNow := "T0"
  , sha1 := fun _ => "H"
  , dateParse := fun _ => none
  , decodeUriComponent := fun s => some s
  , encodeUriComponent := fun s => s
  , collectItems := fun _ _ _ _ _ _ _ => ⟨"[]", "E0", ""⟩
  , renderPreview := fun p => ⟨200, some p, RTag.markdownPreview p, false, none, none, false⟩
  , tokens := [] }

def entryC4 : ServerEntrySettings :=
  ⟨"c4", "e", "127.0.0.1", 3000, "v", false, [], "secret", false, false, "", ""⟩

def reqC4noauth : Request :=
  ⟨"GET", "/__index.json", "/__index.json", none, "127.0.0.1", none, none, none, none,
    none, none, none⟩

def reqC4auth : Request :=
  ⟨"GET", "/__index.json", "/__index.json", some "Bearer secret", "127.0.0.1", none,
    none, none, none, none, none, none⟩

/-- Counterexample to C4 as stated: two index requests differing only in
the Authorization header get different responses (401 versus the index
JSON), so the index path is not dispatched before AccessControl and its
response does depend on the Authorization header. -/
theorem C4_index_routing_counterexample :
    handleRequest envC4 entryC4 (some "/v") reqC4noauth [] = unauthorizedResp ∧
    (handleRequest envC4 entryC4 (some "/v") reqC4auth []).tag = RTag.indexJson ∧
    (handleRequest envC4 entryC4 (some "/v") reqC4auth []).status = 200 ∧
    handleRequest envC4 entryC4 (some "/v") reqC4noauth [] ≠
      handleRequest envC4 entryC4 (some "/v") reqC4auth [] := by
  decide

/-- C4 (amended): a GET/HEAD for the reserved index path is dispatched
to the index handler only after the reserved preview/asset endpoint
checks and the bearer-token gate: with an authToken set and no
Authorization header it is answered 401, and once authorization passes
(or no token is configured) it is answered by the index handler. -/
theorem C4_index_routing_after_auth (env : Env) (entry : ServerEntrySettings)
    (servedRealPath : Option String) (req : Request) (cache : IndexCache)
    (hm : toUpperStr req.method = "GET" ∨ toUpperStr req.method = "HEAD")
    (hpath : req.pathname = "/__index.json") :
    (entry.authToken ≠ "" → req.authorization = none →
      handleRequest env entry servedRealPath req cache = unauthorizedResp) ∧
    (∀ rootS, servedRealPath = some rootS →
      (entry.authToken = "" ∨ (∃ h, req.authorization = some h ∧
        strStartsWith h "Bearer " = true ∧ strDrop h 7 = entry.authToken)) →
      handleRequest env entry servedRealPath req cache =
        (handleIndexRequest env entry rootS req cache).1) := by
  constructor
  · intro htok hnone
    unfold handleRequest
    have hmguard : ¬ (toUpperStr req.method ≠ "GET" ∧ toUpperStr req.method ≠ "HEAD") := by
      rcases hm with h | h <;> simp [h]
    rw [if_neg hmguard, if_neg (show req.pathname ≠ MARKDOWN_PREVIEW_ENDPOINT by
        rw [hpath]; decide),
      if_neg (show req.pathname ≠ MARKDOWN_PREVIEW_ASSET_ENDPOINT by rw [hpath]; decide),
      if_pos htok, hnone]
  · intro rootS hroot hauth
    subst hroot
    rw [handleRequest_eq_resolved env entry (some rootS) req cache hm
      (by rw [hpath]; decide) (by rw [hpath]; decide) hauth]
    simp only [handleRequestResolved]
    rw [if_pos (show cleanRequestPath req.pathname = "/__index.json" by
      rw [hpath]; decide)]

/-- Witness for the amended C4 at the concrete index request. -/
theorem C4_index_routing_after_auth_witness :
    (entryC4.authToken ≠ "" ∧ reqC4noauth.authorization = none ∧
      handleRequest envC4 entryC4 (some "/v") reqC4noauth [] = unauthorizedResp) ∧
    (handleRequest envC4 entryC4 (some "/v") reqC4auth [] =
      (handleIndexRequest envC4 entryC4 "/v" reqC4auth []).1) :=
  ⟨⟨by decide, rfl,
    (C4_index_routing_after_auth envC4 entryC4 (some "/v") reqC4noauth []
      (Or.inl (by decide)) rfl).1 (by decide) rfl⟩,
    (C4_index_routing_after_auth envC4 entryC4 (some "/v") reqC4auth []
      (Or.inl (by decide)) rfl).2 "/v" rfl
      (Or.inr ⟨"Bearer secret", rfl, by decide, by decide⟩)⟩

/-! ## Index cache claims -/

/-- Environment for the first C6 index request (time 0). -/
def envC6a : Env :=
  { sep := '/'
  , fs :=
    { realpath := fun p => if p = "/v" then some "/v" else none
    , stat := fun p =>
        if p = "/v" then StatResult.ok ⟨FileKind.directory, 0, 0⟩
        else StatResult.errEnoent
    , readdir := fun _ => none }
  , vault := { basePath := none, tracked := fun _ => false }
  , now := 0
  , isoNow := "T0"
  , sha1 := fun _ => "H"
  , dateParse := fun _ => none
  , decodeUriComponent := fun s => some s
  , encodeUriComponent := fun s => s
  , collectItems := fun _ _ _ _ _ _ _ => ⟨"[]", "E0", ""⟩
  , renderPreview := fun p => ⟨200, some p, RTag.markdownPreview p, false, none, none, false⟩
  , tokens := [] }

/-- The same server 1 second later, after the served directory has been
deleted (every realpath fails). -/
def envC6gone : Env :=
  { envC6a with
    now := 1000
    fs :=
      { realpath := fun _ => none
      , stat := fun _ => StatResult.errEnoent
      , readdir := fun _ => none } }

def entryC6 : ServerEntrySettings :=
  ⟨"c6", "e", "127.0.0.1", 3000, "v", false, [], "", false, false, "", ""⟩

def reqC6 : Request :=
  ⟨"GET", "/__index.json", "/__index.json", none, "127.0.0.1", none, none, none, none,
    none, none, none⟩

/-- Counterexample to C6 as stated: the first index request caches its
payload at time 0; an identical request 1 s later (well within the 8 s
TTL) is answered 404, not with the cached bytes, because the requested
sub-path is re-resolved against the filesystem before the cache is
consulted (`main.ts:1517-1521`) and the directory no longer resolves. -/
theorem C6_index_cache_counterexample :
    (handleIndexRequest envC6a entryC6 "/v" reqC6 []).1.status = 200 ∧
    ((cacheGet (handleIndexRequest envC6a entryC6 "/v" reqC6 []).2
        (buildIndexCacheKey envC6a.sha1 entryC6
          (normalizeIndexPath (reqC6.pathParam.getD ""))
          (parseIndexExtensions reqC6.extParam)
          (¬ reqC6.recursiveParam = some "0"))).map fun c => c.createdAt) = some 0 ∧
    envC6gone.now - 0 ≤ INDEX_CACHE_TTL_MS ∧
    (handleIndexRequest envC6gone entryC6 "/v" reqC6
        (handleIndexRequest envC6a entryC6 "/v" reqC6 []).2).1 =
      plainResp 404 "Not Found" := by
  decide

/-- C6 (amended): when the requested sub-path still resolves to a
directory and the cache holds an entry for the request's key younger
than the 8 s TTL, the request is answered from the cache — byte-identical
payload and ETag, the cache unchanged, and independent of the traversal
(`collectItems`) and of everything else outside the separator,
filesystem, hash and clock — with 304 and no body when `If-None-Match`
contains the cached ETag. -/
theorem C6_index_cache_freshness (env env₂ : Env) (entry : ServerEntrySettings)
    (root : String) (req : Request) (cache : IndexCache) (d : String)
    (c : IndexCacheEntry)
    (hsep : env₂.sep = env.sep) (hfs : env₂.fs = env.fs)
    (hsha : env₂.sha1 = env.sha1) (hnow : env₂.now = env.now)
    (hdir : resolveIndexDirectory env.sep env.fs root
      (normalizeIndexPath (req.pathParam.getD "")) = some d)
    (hcache : cacheGet cache (buildIndexCacheKey env.sha1 entry
      (normalizeIndexPath (req.pathParam.getD ""))
      (parseIndexExtensions req.extParam) (¬ req.recursiveParam = some "0")) = some c)
    (hfresh : env.now - c.createdAt ≤ INDEX_CACHE_TTL_MS) :
    (handleIndexRequest env₂ entry root req cache).2 = cache ∧
    ((req.ifNoneMatch.getD "" ≠ "" ∧ strContains (req.ifNoneMatch.getD "") c.etag = true) →
      (handleIndexRequest env₂ entry root req cache).1 =
        ⟨304, none, RTag.indexJson, false, some c.etag, none, false⟩) ∧
    (¬ (req.ifNoneMatch.getD "" ≠ "" ∧ strContains (req.ifNoneMatch.getD "") c.etag = true) →
      (handleIndexRequest env₂ entry root req cache).1 =
        ⟨200, (if ¬ toUpperStr req.method = "HEAD" then some c.payload else none),
          RTag.indexJson, false, some c.etag, none, false⟩) := by
  unfold handleIndexRequest
  simp only [hsep, hfs, hsha, hnow, hdir, hcache]
  rw [if_pos hfresh]
  by_cases hinm : (req.ifNoneMatch.getD "" ≠ "" ∧
      strContains (req.ifNoneMatch.getD "") c.etag = true)
  · rw [if_pos hinm]
    exact ⟨rfl, fun _ => rfl, fun hno => absurd hinm hno⟩
  · rw [if_neg hinm]
    exact ⟨rfl, fun hyes => absurd hyes hinm, fun _ => rfl⟩

/-- The same server 1 second later with the directory intact but a
traversal that would now produce different bytes. -/
def envC6later : Env :=
  { envC6a with
    now := 1000
    isoNow := "T9"
    collectItems := fun _ _ _ _ _ _ _ => ⟨"[9]", "DIFFERENT", ""⟩ }

def reqC6inm : Request :=
  ⟨"GET", "/__index.json", "/__index.json", none, "127.0.0.1", none, none, none, none,
    none, some "E0", none⟩

/-- Witness for the amended C6: the second request within the TTL
returns the first request's exact payload and ETag (although its own
traversal would produce different bytes), and with If-None-Match it
returns 304 with no body. -/
theorem C6_index_cache_freshness_witness :
    ((handleIndexRequest envC6a entryC6 "/v" reqC6 []).1.body =
        some (mkIndexPayload "" "[]" "T0") ∧
      (handleIndexRequest envC6a entryC6 "/v" reqC6 []).1.etagHeader = some "E0" ∧
      envC6later.collectItems "/v" "/v" [] true none none false ≠ ⟨"[]", "E0", ""⟩) ∧
    (handleIndexRequest envC6later entryC6 "/v" reqC6
        (handleIndexRequest envC6a entryC6 "/v" reqC6 []).2).1 =
      ⟨200, some (mkIndexPayload "" "[]" "T0"), RTag.indexJson, false, some "E0", none,
        false⟩ ∧
    (handleIndexRequest envC6later entryC6 "/v" reqC6inm
        (handleIndexRequest envC6a entryC6 "/v" reqC6 []).2).1 =
      ⟨304, none, RTag.indexJson, false, some "E0", none, false⟩ :=
  ⟨by decide,
    by
      have h := (C6_index_cache_freshness envC6later envC6later entryC6 "/v" reqC6
        (handleIndexRequest envC6a entryC6 "/v" reqC6 []).2 "/v"
        ⟨"E0", 0, mkIndexPayload "" "[]" "T0"⟩ rfl rfl rfl rfl
        (by decide) (by decide) (by decide)).2.2 (by decide)
      exact h,
    by
      have h := (C6_index_cache_freshness envC6later envC6later entryC6 "/v" reqC6inm
        (handleIndexRequest envC6a entryC6 "/v" reqC6 []).2 "/v"
        ⟨"E0", 0, mkIndexPayload "" "[]" "T0"⟩ rfl rfl rfl rfl
        (by decide) (by decide) (by decide)).2.1 (by decide)
      exact h⟩

end LocalVaultServer
